import Mathlib

/-!
# Chat server registry and session handler (server.c)

A shallow embedding of the client table of `server.c`, of the operations on it
(`add_client`, `remove_client_by_index`, `remove_client_by_id`,
`broadcast_room`, `broadcast_all`, `change_room`, `find_index_by_sock`), of one
iteration of the `handle_client` loop, of one iteration of the
`server_console` loop and of one iteration of the accept loop of `main`.

Conventions of the embedding:

* the two globals `clients[MAX_CLIENTS]` and `disconnected_count` are the two
  fields of `Registry`, passed explicitly; the mutex is not modelled (every
  operation is run as one atomic step);
* a C string is a list of characters, the `char` 0 is `NUL`;
* `int active` is only ever tested for truth and assigned 0 or 1: it is a
  `Bool`;
* an `int` is an integer; the only arithmetic on `int`s is `i + 1` on a slot
  index, which stays below 6, and the increment of `disconnected_count`,
  which wraps from `INT_MAX` to `INT_MIN` as the compiled code does
  (`int_wrap`);
* `recv` is modelled by what it returns: a failure, or the bytes it stored (at
  most `BUF_SIZE - 1` of them, none at end of stream); `recv_bytes` and `fgets`
  give the bytes one call stores of the bytes that wait on a connection and on
  the standard input;
* everything the program does to the outside world is an `Event`: a `send` on
  a socket, a `close` of a socket, a `printf` on the server terminal;
* an array access outside `0 .. MAX_CLIENTS-1` is undefined behaviour in C: the
  functions that can do one return `none` there;
* `Step` is one operation on the table, by any caller; `LineReachable` are the
  tables reached by registrations, unregistrations and iterations of sessions;
  `ServerStep` is one step of the program as a whole, which keeps track of the
  threads it started and of the sessions that run.
-/

namespace ChatServer

/-- A C string, without its terminating NUL. -/
abbrev Str := List Char

/-- The `char` 0: string terminator, and the room of a client that is in no room. -/
def NUL : Char := Char.ofNat 0

/-- The number of slots of the table. -/
abbrev MAX_CLIENTS : Nat := 5

/-- The size of the receive buffer of a session. -/
abbrev BUF_SIZE : Nat := 1024

/-- The struct `client_t`. -/
structure client_t where
  sockfd : Int
  id : Int
  room : Char
  active : Bool
deriving DecidableEq, Repr

/-- The global state of the server: the table `clients` and `disconnected_count`. -/
structure Registry where
  clients : Fin MAX_CLIENTS → client_t
  disconnected_count : Int

/-- An effect of the program on the outside world. -/
inductive Event where
  | send (sockfd : Int) (msg : Str)
  | close (sockfd : Int)
  | printf (text : Str)
deriving DecidableEq, Repr

/-- The indices `0, 1, .., MAX_CLIENTS-1` in the order the `for` loops visit them. -/
def slots : List (Fin MAX_CLIENTS) := List.finRange MAX_CLIENTS

/-- The conversion `%d` of `printf`. -/
def fmt_d (n : Int) : Str := (toString n).toList

/-- The call `snprintf(buf, size, ..)`: at most `size - 1` characters of the formatted text are kept. -/
def snprintf (size : Nat) (text : Str) : Str := text.take (size - 1)

/-- The slot a C `int` index designates, when it is inside the array. -/
def slot_of_index (idx : Int) : Option (Fin MAX_CLIENTS) :=
  if h : 0 ≤ idx ∧ idx < (MAX_CLIENTS : Int) then
    some ⟨idx.toNat, by
      have h1 := h.1
      have h2 := h.2
      omega⟩
  else none

/-- Store `c` in slot `i` of the table. -/
def Registry.set (r : Registry) (i : Fin MAX_CLIENTS) (c : client_t) : Registry :=
  { r with clients := Function.update r.clients i c }

/-- The function `send_to_client`. -/
def send_to_client (sockfd : Int) (msg : Str) : List Event :=
  if sockfd ≤ 0 then [] else [Event.send sockfd msg]

/-- The loop of `add_client` over the indices still to visit. -/
def add_client_scan (sockfd : Int) (r : Registry) : List (Fin MAX_CLIENTS) → Registry × Int
  | [] => (r, -1)
  | i :: rest =>
    if !(r.clients i).active then
      (r.set i { sockfd := sockfd, id := (i.val : Int) + 1, room := NUL, active := true },
        (i.val : Int) + 1)
    else add_client_scan sockfd r rest

/-- The function `add_client`: the new state and the returned id (or -1). -/
def add_client (sockfd : Int) (r : Registry) : Registry × Int :=
  add_client_scan sockfd r slots

/-- The largest `int`. -/
def INT_MAX : Int := 2147483647

/-- The smallest `int`. -/
def INT_MIN : Int := -2147483648

/-- The `int` that holds the result `n` of an `int` operation: `n` itself when it is between
`INT_MIN` and `INT_MAX`, and otherwise the value congruent to `n` modulo 2^32 in that range
(the compiled increment of `INT_MAX` gives `INT_MIN`). -/
def int_wrap (n : Int) : Int := (n + 2147483648) % 4294967296 - 2147483648

/-- The function `remove_client_by_index`. -/
def remove_client_by_index (idx : Int) (r : Registry) : Option (Registry × List Event) :=
  match slot_of_index idx with
  | none => none
  | some i =>
    if (r.clients i).active then
      some ({ clients := Function.update r.clients i
                { r.clients i with active := false, sockfd := 0, room := NUL },
              disconnected_count := int_wrap (r.disconnected_count + 1) },
            [Event.close (r.clients i).sockfd,
             Event.printf ("[Server] Client ".toList ++ fmt_d (idx + 1) ++
               " disconnected. Total disconnected: ".toList ++
               fmt_d (int_wrap (r.disconnected_count + 1)) ++ "\n".toList)])
    else some (r, [])

/-- The function `remove_client_by_id`. -/
def remove_client_by_id (id : Int) (r : Registry) : Option (Registry × List Event) :=
  if id ≤ 0 then some (r, []) else remove_client_by_index (id - 1) r

/-- The loop of `broadcast_room` over the indices still to visit. -/
def broadcast_room_scan (room : Char) (msg : Str) (exclude_sockfd : Int) (r : Registry) :
    List (Fin MAX_CLIENTS) → List Event
  | [] => []
  | i :: rest =>
    (if (r.clients i).active && (r.clients i).room == room then
      if (r.clients i).sockfd != exclude_sockfd then send_to_client (r.clients i).sockfd msg
      else []
    else []) ++ broadcast_room_scan room msg exclude_sockfd r rest

/-- The function `broadcast_room`. -/
def broadcast_room (room : Char) (msg : Str) (exclude_sockfd : Int) (r : Registry) : List Event :=
  broadcast_room_scan room msg exclude_sockfd r slots

/-- The loop of `broadcast_all` over the indices still to visit. -/
def broadcast_all_scan (msg : Str) (r : Registry) : List (Fin MAX_CLIENTS) → List Event
  | [] => []
  | i :: rest =>
    (if (r.clients i).active then send_to_client (r.clients i).sockfd msg else []) ++
      broadcast_all_scan msg r rest

/-- The function `broadcast_all`. -/
def broadcast_all (msg : Str) (r : Registry) : List Event :=
  broadcast_all_scan msg r slots

/-- The function `change_room`. -/
def change_room (client_id : Int) (new_room : Char) (r : Registry) : Option Registry :=
  if client_id ≤ 0 then some r
  else
    match slot_of_index (client_id - 1) with
    | none => none
    | some i =>
      if (r.clients i).active then some (r.set i { r.clients i with room := new_room })
      else some r

/-- The loop of `find_index_by_sock` over the indices still to visit. -/
def find_index_by_sock_scan (sockfd : Int) (r : Registry) : List (Fin MAX_CLIENTS) → Int
  | [] => -1
  | i :: rest =>
    if (r.clients i).active && (r.clients i).sockfd == sockfd then (i.val : Int)
    else find_index_by_sock_scan sockfd r rest

/-- The function `find_index_by_sock`. -/
def find_index_by_sock (sockfd : Int) (r : Registry) : Int :=
  find_index_by_sock_scan sockfd r slots

/-- The locals `sockfd` and `idx` of a running `handle_client` thread. -/
structure Session where
  sockfd : Int
  idx : Fin MAX_CLIENTS
deriving DecidableEq, Repr

/-- The local `client_id` of `handle_client`. -/
def Session.client_id (s : Session) : Int := (s.idx.val : Int) + 1

/-- The part of `handle_client` before its loop: the session, if one starts. -/
def handle_client_start (sockfd : Int) (r : Registry) : Option (Option Session × List Event) :=
  let idx := find_index_by_sock sockfd r
  if idx = -1 then some (none, [Event.close sockfd])
  else
    match slot_of_index idx with
    | none => none
    | some i =>
      some (some { sockfd := sockfd, idx := i },
        send_to_client sockfd "Welcome! Enter room: A / B / C (example: A)\n".toList)

/-- The loop that removes the trailing line feeds and carriage returns of the `n` received bytes. -/
def strip_crlf (buf : Str) : Str :=
  (buf.reverse.dropWhile (fun c => c == '\n' || c == '\r')).reverse

/-- The C string a buffer holds: its bytes up to the first NUL. -/
def c_str (buf : Str) : Str := buf.takeWhile (fun c => c != NUL)

/-- The byte `s[k]` of a C string, for `k` up to its length. -/
def char_at (s : Str) (k : Nat) : Char := s.getD k NUL

/-- The test `strncmp(a, b, n) == 0` on C strings. -/
def strncmp_eq (a b : Str) (n : Nat) : Bool := a.take n == b.take n

/-- The test `r=='A'||r=='B'||r=='C'`. -/
def is_room_letter (c : Char) : Bool := c == 'A' || c == 'B' || c == 'C'

/-- The body of the loop of `handle_client` from the test for `EXIT!` on, for the C string
`buf` the stripped buffer holds. The result is the new state, the events, and whether the
loop goes on. -/
def handle_client_line (s : Session) (buf : Str) (r : Registry) :
    Option (Registry × List Event × Bool) :=
  if buf = "EXIT!".toList then
    match remove_client_by_id s.client_id r with
    | none => none
    | some (r1, ev) => some (r1, send_to_client s.sockfd "Goodbye!\n".toList ++ ev, false)
  else if char_at buf 0 == '/' && strncmp_eq buf "/room ".toList 6 then
    let c := char_at buf 6
    if is_room_letter c then
      let r1 := r.set s.idx { r.clients s.idx with room := c }
      let moved := snprintf 256 ("[Server] Client ".toList ++ fmt_d s.client_id ++
        " moved to Room".toList ++ [c] ++ ".\n".toList)
      let joined := snprintf 256 ("[Server] Client ".toList ++ fmt_d s.client_id ++
        " joined Room".toList ++ [c] ++ ".\n".toList)
      some (r1, send_to_client s.sockfd moved ++ broadcast_room c joined s.sockfd r1, true)
    else
      some (r, send_to_client s.sockfd "Invalid room. Use A or B or C\n".toList, true)
  else if buf.length = 1 ∧ is_room_letter (char_at buf 0) = true then
    let c := char_at buf 0
    let r1 := r.set s.idx { r.clients s.idx with room := c }
    let you := snprintf 256 ("You joined Room".toList ++ [c] ++ "\n".toList)
    let joined := snprintf 256 ("[Server] Client ".toList ++ fmt_d s.client_id ++
      " joined Room".toList ++ [c] ++ ".\n".toList)
    some (r1, send_to_client s.sockfd you ++ broadcast_room c joined s.sockfd r1, true)
  else
    let current_room := (r.clients s.idx).room
    if current_room = NUL then
      some (r, send_to_client s.sockfd
        "You are not in any room. Enter A/B/C or use /room <A|B|C>\n".toList, true)
    else
      let msg := snprintf 1200 ("Client".toList ++ fmt_d s.client_id ++ "@Room".toList ++
        [current_room] ++ ": ".toList ++ buf ++ "\n".toList)
      some (r, broadcast_room current_room msg s.sockfd r, true)

/-- The branch `n <= 0` of the loop of `handle_client`. -/
def handle_client_closed (s : Session) (r : Registry) : Option (Registry × List Event × Bool) :=
  match remove_client_by_id s.client_id r with
  | none => none
  | some (r1, ev) =>
    some (r1, Event.printf ("[Server] recv <=0 from client ".toList ++ fmt_d s.client_id ++
      ", closing.\n".toList) :: ev, false)

/-- One iteration of the loop of `handle_client`: `recv` is `none` when `recv` fails and the
received bytes otherwise (none of them at end of stream). The result is the new state, the
events, and whether the loop goes on. -/
def handle_client_step (s : Session) (recv : Option Str) (r : Registry) :
    Option (Registry × List Event × Bool) :=
  match recv with
  | none => handle_client_closed s r
  | some data =>
    if data.length = 0 then handle_client_closed s r
    else
      let stripped := strip_crlf data
      if stripped.length = 0 then some (r, [], true)
      else handle_client_line s (c_str stripped) r

/-- One iteration of the loop of `server_console` on the line `fgets` read. -/
def server_console_step (raw : Str) (r : Registry) : List Event :=
  let line := strip_crlf (c_str raw)
  if line.length = 0 then []
  else if strncmp_eq line "/announce ".toList 10 then
    broadcast_all (snprintf 1200 ("[ANNOUNCE] ".toList ++ line.drop 10 ++ "\n".toList)) r ++
      [Event.printf "[Server] broadcasted announcement.\n".toList]
  else if line = "/list".toList then
    Event.printf "Client list:\n".toList ::
      slots.map (fun i =>
        if (r.clients i).active then
          Event.printf ("  id=".toList ++ fmt_d (r.clients i).id ++ " sock=".toList ++
            fmt_d (r.clients i).sockfd ++ " room=".toList ++
            [if (r.clients i).room != NUL then (r.clients i).room else '-'] ++ "\n".toList)
        else
          Event.printf ("  slot ".toList ++ fmt_d ((i.val : Int) + 1) ++ " empty\n".toList))
  else
    [Event.printf
      "Use /announce <msg> to broadcast to all clients, /list to view clients\n".toList]

/-- The state after the initialisation loop of `main`. -/
def init_registry : Registry :=
  { clients := fun i => { sockfd := 0, id := (i.val : Int) + 1, room := NUL, active := false },
    disconnected_count := 0 }

/-- One iteration of the accept loop of `main` for the descriptor `accept` returned;
`thread_created` says whether `pthread_create` succeeded. What `perror` writes is not
modelled. The result is the new state, the events, and the id of the session thread that
was started, if one was. -/
def main_accept (connfd : Int) (thread_created : Bool) (r : Registry) :
    Option (Registry × List Event × Option Int) :=
  if connfd < 0 then some (r, [], none)
  else
    let p := add_client connfd r
    if p.2 = -1 then
      some (p.1, send_to_client connfd "Server is full!\n".toList ++
        [Event.close connfd,
         Event.printf "[Server] Rejected incoming connection: server full.\n".toList], none)
    else
      let accepted := [Event.printf ("[Server] New connection accepted, assigned id=".toList ++
        fmt_d p.2 ++ " sock=".toList ++ fmt_d connfd ++ "\n".toList)] ++
        send_to_client connfd
          (snprintf 256 ("Welcome! Your client id is ".toList ++ fmt_d p.2 ++ "\n".toList))
      if thread_created then some (p.1, accepted, some p.2)
      else
        match remove_client_by_id p.2 p.1 with
        | none => none
        | some (r1, ev) => some (r1, accepted ++ ev, none)

/-- One step of the server on its table: a registration, an unregistration, a change of
room, or one iteration of the loop of a session. -/
inductive Step : Registry → Registry → Prop where
  | register (r : Registry) (sockfd : Int) : Step r (add_client sockfd r).1
  | unregister (r r1 : Registry) (id : Int) (ev : List Event) :
      remove_client_by_id id r = some (r1, ev) → Step r r1
  | set_room (r r1 : Registry) (id : Int) (room : Char) :
      change_room id room r = some r1 → Step r r1
  | session (r r1 : Registry) (s : Session) (recv : Option Str) (ev : List Event) (go : Bool) :
      handle_client_step s recv r = some (r1, ev, go) → Step r r1

/-- The states the server can be in: those some sequence of steps leads to from the
initial table. -/
inductive Reachable : Registry → Prop where
  | init : Reachable init_registry
  | step (r r1 : Registry) : Reachable r → Step r r1 → Reachable r1

/-- A table whose five slots are active, with handles 4 to 8, in rooms A, B, none, A, C. -/
def full_registry : Registry :=
  { clients := fun i =>
      { sockfd := (i.val : Int) + 4, id := (i.val : Int) + 1,
        room := if i.val = 0 ∨ i.val = 3 then 'A' else if i.val = 1 then 'B'
                else if i.val = 4 then 'C' else NUL,
        active := true },
    disconnected_count := 2 }

/-- The state `remove_client_by_index` leaves when it frees the active slot `i`. -/
def Registry.freed (r : Registry) (i : Fin MAX_CLIENTS) : Registry :=
  { clients := Function.update r.clients i
      { r.clients i with active := false, sockfd := 0, room := NUL },
    disconnected_count := int_wrap (r.disconnected_count + 1) }

/-- The events of `remove_client_by_index` when it frees the active slot `i`. -/
def Registry.freed_events (r : Registry) (i : Fin MAX_CLIENTS) : List Event :=
  [Event.close (r.clients i).sockfd,
   Event.printf ("[Server] Client ".toList ++ fmt_d ((i.val : Int) + 1) ++
     " disconnected. Total disconnected: ".toList ++
     fmt_d (int_wrap (r.disconnected_count + 1)) ++ "\n".toList)]

/-- Two calls of `remove_client_by_id` with the same id, one after the other: the final
state and all the events of the two calls. -/
def remove_client_by_id_twice (id : Int) (r : Registry) : Option (Registry × List Event) :=
  (remove_client_by_id id r).bind (fun p =>
    (remove_client_by_id id p.1).map (fun q => (q.1, p.2 ++ q.2)))

/-- The sends of `msg` to the active slots of `room` whose handle is positive and is not
`exclude`, in slot order. -/
def room_deliveries (r : Registry) (room : Char) (msg : Str) (exclude : Int) : List Event :=
  (slots.filter (fun i => (r.clients i).active && (r.clients i).room == room &&
      (r.clients i).sockfd != exclude && decide (0 < (r.clients i).sockfd))).map
    (fun i => Event.send (r.clients i).sockfd msg)

/-- Every slot of the table carries the id that goes with its position. -/
def Registry.ids_by_position (r : Registry) : Prop :=
  ∀ i : Fin MAX_CLIENTS, (r.clients i).id = (i.val : Int) + 1

/-- Two states are equal when their slots and their counters are. -/
instance decEqRegistry : DecidableEq Registry := fun a b =>
  decidable_of_iff
    ((∀ i, a.clients i = b.clients i) ∧ a.disconnected_count = b.disconnected_count)
    (by cases a; cases b; simp [funext_iff])

/-- Equality of optional results is decided on the values they hold. -/
instance decEqOption {α : Type} [DecidableEq α] : DecidableEq (Option α)
  | none, none => isTrue rfl
  | some a, some b => decidable_of_iff (a = b) (by simp)
  | none, some _ => isFalse (by simp)
  | some _, none => isFalse (by simp)

/-- A table in which slot 0 is active with the descriptor 0 as handle and slot 1 is active
with handle 4, both in room A. -/
def zero_handle_registry : Registry :=
  (init_registry.set 0 { sockfd := 0, id := 1, room := 'A', active := true }).set 1
    { sockfd := 4, id := 2, room := 'A', active := true }

/-- End-to-end scenario: the table once client 1 is registered with handle 4. -/
def scenario_1 : Registry :=
  init_registry.set 0 { sockfd := 4, id := 1, room := NUL, active := true }

/-- End-to-end scenario: the table once client 1 is in room A. -/
def scenario_2 : Registry :=
  init_registry.set 0 { sockfd := 4, id := 1, room := 'A', active := true }

/-- End-to-end scenario: the table once client 2 is registered with handle 5. -/
def scenario_3 : Registry :=
  scenario_2.set 1 { sockfd := 5, id := 2, room := NUL, active := true }

/-- End-to-end scenario: the table once client 2 is in room A. -/
def scenario_4 : Registry :=
  scenario_2.set 1 { sockfd := 5, id := 2, room := 'A', active := true }

/-- End-to-end scenario: the table once client 1 has left. -/
def scenario_5 : Registry :=
  { clients := Function.update scenario_4.clients 0
      { sockfd := 0, id := 1, room := NUL, active := false },
    disconnected_count := 1 }

/-- The number of disconnects of a step from `r` to `r1`: 1 when some slot is active in `r`
and free in `r1`, and 0 otherwise. -/
def disconnects (r r1 : Registry) : Int :=
  if ∃ i, (r.clients i).active = true ∧ (r1.clients i).active = false then 1 else 0

/-- The states the server can be in, with the number of disconnects of the steps that led
there from the initial table. -/
inductive Run : Registry → Int → Prop where
  | init : Run init_registry 0
  | step (r r1 : Registry) (n : Int) : Run r n → Step r r1 → Run r1 (n + disconnects r r1)

/-- The server as a whole: the table, the descriptors of the connections whose thread
`pthread_create` started and that has not yet called `find_index_by_sock`, and the sessions
that are inside the loop of `handle_client`. -/
structure Server where
  registry : Registry
  pending : List Int
  sessions : List Session

/-- The server when `main` enters its accept loop. -/
def init_server : Server :=
  { registry := init_registry, pending := [], sessions := [] }

/-- One step of the server as a whole. `accept`: an iteration of the accept loop of `main`,
for a result of `accept` that is not 0 (descriptor 0 is the standard input, which the
console reads and the program never closes) and that no active slot holds (the system never
returns a descriptor that is still open, and the descriptor of a slot is closed only when
the slot is freed); when a thread is started its descriptor becomes pending. `start`: a
started thread runs `handle_client` up to its loop, and is a session from then on if it
found its slot. `line`: a session runs one iteration of its loop, and is no longer a
session if the loop ends. -/
inductive ServerStep : Server → Server → Prop where
  | accept (σ : Server) (connfd : Int) (created : Bool) (r1 : Registry) (ev : List Event)
      (tid : Option Int) :
      connfd ≠ 0 →
      (∀ i, (σ.registry.clients i).active = true → (σ.registry.clients i).sockfd ≠ connfd) →
      main_accept connfd created σ.registry = some (r1, ev, tid) →
      ServerStep σ
        { registry := r1,
          pending := if tid.isSome then connfd :: σ.pending else σ.pending,
          sessions := σ.sessions }
  | start (σ : Server) (fd : Int) (started : Option Session) (ev : List Event) :
      fd ∈ σ.pending →
      handle_client_start fd σ.registry = some (started, ev) →
      ServerStep σ
        { registry := σ.registry,
          pending := σ.pending.erase fd,
          sessions := started.toList ++ σ.sessions }
  | line (σ : Server) (s : Session) (recv : Option Str) (r1 : Registry) (ev : List Event)
      (go : Bool) :
      s ∈ σ.sessions →
      handle_client_step s recv σ.registry = some (r1, ev, go) →
      ServerStep σ
        { registry := r1,
          pending := σ.pending,
          sessions := if go then σ.sessions else σ.sessions.erase s }

/-- The states of the server as a whole that some sequence of steps leads to from
`init_server`. -/
inductive ServerReachable : Server → Prop where
  | init : ServerReachable init_server
  | step (σ σ1 : Server) : ServerReachable σ → ServerStep σ σ1 → ServerReachable σ1

/-- What holds of the table `r`, the pending descriptors `p` and the sessions `ss` in
every state the server as a whole reaches: a free slot has no room and no handle, a room is
none, A, B or C, the active slots hold distinct handles, a pending descriptor is held by an
active slot, a session is on an active slot that holds its descriptor, and no descriptor is
pending twice, in two sessions, or both pending and in a session. -/
structure ServerInv (r : Registry) (p : List Int) (ss : List Session) : Prop where
  free_clear : ∀ i, (r.clients i).active = false →
    (r.clients i).room = NUL ∧ (r.clients i).sockfd = 0
  rooms : ∀ i, (r.clients i).room = NUL ∨ is_room_letter (r.clients i).room = true
  distinct : ∀ i j, (r.clients i).active = true → (r.clients j).active = true →
    (r.clients i).sockfd = (r.clients j).sockfd → i = j
  pending_held : ∀ fd ∈ p, ∃ i, (r.clients i).active = true ∧ (r.clients i).sockfd = fd
  pending_nodup : p.Nodup
  bound : ∀ s ∈ ss, (r.clients s.idx).active = true ∧ (r.clients s.idx).sockfd = s.sockfd
  sessions_nodup : ss.Nodup
  started : ∀ s ∈ ss, s.sockfd ∉ p

/-- The server as a whole once the connection with descriptor 4 is registered, its session
is started and it has joined room A. -/
def scenario_server : Server :=
  { registry := scenario_2, pending := [], sessions := [{ sockfd := 4, idx := 0 }] }

/-- The bytes `fgets(line, size, stdin)` stores when it can store `n` more bytes and the
bytes `pending` wait on the input: the bytes up to the first line feed, which is stored
too, and at most `n` of them. -/
def fgets_scan : Nat → Str → Str
  | 0, _ => []
  | _ + 1, [] => []
  | n + 1, c :: rest => if c = '\n' then [c] else c :: fgets_scan n rest

/-- The call `fgets(line, size, stdin)` when the bytes `pending` wait on the input: nothing
at the end of the input, and otherwise a line of at most `size - 1` bytes. -/
def fgets (size : Nat) (pending : Str) : Option Str :=
  if pending = [] then none else some (fgets_scan (size - 1) pending)

/-- The table with no client whose disconnect counter is `n`. -/
def count_registry (n : Int) : Registry :=
  { clients := init_registry.clients, disconnected_count := n }

/-- The table whose disconnect counter is `n` and whose only client, in slot 0, holds the
handle 4 and is in no room. -/
def count_session (n : Int) : Registry :=
  (count_registry n).set 0 { sockfd := 4, id := 1, room := NUL, active := true }

/-- The table with one client, in slot 0 with handle 4, after `INT_MAX` disconnects. -/
def max_count_session : Registry := count_session INT_MAX

/-- The states reached from the initial all-free table by registrations, unregistrations
and iterations of a session handler on arbitrary received bytes (or on the end of the
connection). With `on_active` the iterations are those of sessions whose slot is active;
without it, those of any session. -/
inductive LineReachable (on_active : Bool) : Registry → Prop where
  | init : LineReachable on_active init_registry
  | register (r : Registry) (sockfd : Int) :
      LineReachable on_active r → LineReachable on_active (add_client sockfd r).1
  | unregister (r r1 : Registry) (id : Int) (ev : List Event) :
      LineReachable on_active r → remove_client_by_id id r = some (r1, ev) →
      LineReachable on_active r1
  | line (r r1 : Registry) (s : Session) (recv : Option Str) (ev : List Event) (go : Bool) :
      LineReachable on_active r →
      (on_active = true → (r.clients s.idx).active = true) →
      handle_client_step s recv r = some (r1, ev, go) → LineReachable on_active r1

theorem slots_eq : slots = [0, 1, 2, 3, 4] := by decide

theorem slots_split (i : Fin MAX_CLIENTS) :
    slots = slots.filter (fun j => decide (j < i)) ++
      i :: slots.filter (fun j => decide (i < j)) := by
  revert i; decide

theorem slot_of_index_some (idx : Int) (h0 : 0 ≤ idx) (h5 : idx < MAX_CLIENTS) :
    ∃ i : Fin MAX_CLIENTS, slot_of_index idx = some i ∧ (i.val : Int) = idx := by
  have h5a : idx < 5 := by simpa using h5
  refine ⟨⟨idx.toNat, by omega⟩, ?_, ?_⟩
  · simp [slot_of_index, h0, h5a]
  · simp [h0]

theorem slot_of_index_val (idx : Int) (i : Fin MAX_CLIENTS) (hi : slot_of_index idx = some i) :
    (i.val : Int) = idx := by
  unfold slot_of_index at hi
  split at hi
  · rename_i h
    have h0 := h.1
    cases hi
    simp [h0]
  · cases hi

theorem Registry.set_clients_same (r : Registry) (i : Fin MAX_CLIENTS) (c : client_t) :
    (r.set i c).clients i = c := by
  simp [Registry.set]

theorem Registry.set_clients_other (r : Registry) (i j : Fin MAX_CLIENTS) (c : client_t)
    (h : j ≠ i) : (r.set i c).clients j = r.clients j := by
  simp [Registry.set, Function.update_noteq h]

theorem Registry.set_set_room (r : Registry) (i : Fin MAX_CLIENTS) (c : Char) :
    (r.set i { r.clients i with room := c }).set i
      { (r.set i { r.clients i with room := c }).clients i with room := c } =
    r.set i { r.clients i with room := c } := by
  simp [Registry.set]

theorem Registry.freed_active (r : Registry) (i : Fin MAX_CLIENTS) :
    ((r.freed i).clients i).active = false := by
  simp [Registry.freed]

theorem Registry.freed_same (r : Registry) (i : Fin MAX_CLIENTS) :
    (r.freed i).clients i =
      { sockfd := 0, id := (r.clients i).id, room := NUL, active := false } := by
  simp [Registry.freed]

theorem Registry.freed_other (r : Registry) (i j : Fin MAX_CLIENTS) (h : j ≠ i) :
    (r.freed i).clients j = r.clients j := by
  simp [Registry.freed, Function.update_noteq h]

/-! ## Registration -/

theorem add_client_scan_full (sockfd : Int) (r : Registry) (l : List (Fin MAX_CLIENTS))
    (h : ∀ i ∈ l, (r.clients i).active = true) : add_client_scan sockfd r l = (r, -1) := by
  induction l with
  | nil => rfl
  | cons i rest ih =>
    have hi := h i (List.mem_cons_self i rest)
    have hrest := ih (fun j hj => h j (List.mem_cons_of_mem i hj))
    simp [add_client_scan, hi, hrest]

theorem add_client_scan_first (sockfd : Int) (r : Registry) (pre post : List (Fin MAX_CLIENTS))
    (i : Fin MAX_CLIENTS) (hpre : ∀ j ∈ pre, (r.clients j).active = true)
    (hi : (r.clients i).active = false) :
    add_client_scan sockfd r (pre ++ i :: post) =
      (r.set i { sockfd := sockfd, id := (i.val : Int) + 1, room := NUL, active := true },
        (i.val : Int) + 1) := by
  induction pre with
  | nil => simp [add_client_scan, hi]
  | cons j rest ih =>
    have hj := hpre j (List.mem_cons_self j rest)
    have hrest := ih (fun k hk => hpre k (List.mem_cons_of_mem j hk))
    simp [add_client_scan, hj, hrest]

theorem add_client_first_free (sockfd : Int) (r : Registry) (i : Fin MAX_CLIENTS)
    (hi : (r.clients i).active = false) (hmin : ∀ j, j < i → (r.clients j).active = true) :
    add_client sockfd r =
      (r.set i { sockfd := sockfd, id := (i.val : Int) + 1, room := NUL, active := true },
        (i.val : Int) + 1) := by
  unfold add_client
  rw [slots_split i]
  apply add_client_scan_first _ _ _ _ _ _ hi
  intro j hj
  simp at hj
  exact hmin j hj.2

theorem exists_first_free (r : Registry) (hfree : ∃ j, (r.clients j).active = false) :
    ∃ i, (r.clients i).active = false ∧ ∀ j, j < i → (r.clients j).active = true := by
  obtain ⟨i, hi, hmin⟩ := wellFounded_lt.has_min
    (setOf (fun j : Fin MAX_CLIENTS => (r.clients j).active = false)) hfree
  refine ⟨i, hi, fun j hj => ?_⟩
  by_contra hc
  exact hmin j (by simpa using hc) hj

theorem add_client_scan_shape (sockfd : Int) (r : Registry) (l : List (Fin MAX_CLIENTS)) :
    (add_client_scan sockfd r l).1 = r ∨
    ∃ i, (r.clients i).active = false ∧ (add_client_scan sockfd r l).1 =
      r.set i { sockfd := sockfd, id := (i.val : Int) + 1, room := NUL, active := true } := by
  induction l with
  | nil => exact Or.inl rfl
  | cons i rest ih =>
    unfold add_client_scan
    cases hact : (r.clients i).active with
    | false => exact Or.inr ⟨i, hact, by simp⟩
    | true => simpa using ih

/-- C1: when all five slots are active, `add_client` returns -1 (full) for every handle, and
the state it returns is the state it was given: every slot of the table and the disconnect
counter are unchanged. -/
theorem C1_add_client_full (r : Registry) (h : Int)
    (hfull : ∀ i, (r.clients i).active = true) : add_client h r = (r, -1) :=
  add_client_scan_full h r slots (fun i _ => hfull i)

/-- C1 at the table `full_registry` and the handle 9. -/
theorem C1_witness_full_table :
    (∀ i, (full_registry.clients i).active = true) ∧
      add_client 9 full_registry = (full_registry, -1) :=
  ⟨fun _ => rfl, C1_add_client_full full_registry 9 (fun _ => rfl)⟩

/-- C2: when some slot is free, `add_client h` picks the free slot `i` of lowest index (all
slots before it are active), returns `i + 1`, and leaves a table whose slot `i` is active
with handle `h`, id `i + 1` and no room, every other slot and the disconnect counter being
unchanged. -/
theorem C2_add_client_lowest_free (r : Registry) (h : Int)
    (hfree : ∃ j, (r.clients j).active = false) :
    ∃ i : Fin MAX_CLIENTS,
      (r.clients i).active = false ∧ (∀ j, j < i → (r.clients j).active = true) ∧
      (add_client h r).2 = (i.val : Int) + 1 ∧
      (add_client h r).1.clients i =
        { sockfd := h, id := (i.val : Int) + 1, room := NUL, active := true } ∧
      (∀ j, j ≠ i → (add_client h r).1.clients j = r.clients j) ∧
      (add_client h r).1.disconnected_count = r.disconnected_count := by
  obtain ⟨i, hi, hmin⟩ := exists_first_free r hfree
  refine ⟨i, hi, hmin, ?_⟩
  rw [add_client_first_free h r i hi hmin]
  exact ⟨rfl, Registry.set_clients_same _ _ _,
    fun j hj => Registry.set_clients_other _ _ _ _ hj, rfl⟩

/-- C2 at the table `zero_handle_registry`, whose slots 2, 3 and 4 are free, and the
handle 9. -/
theorem C2_witness_two_active :
    (∃ j, (zero_handle_registry.clients j).active = false) ∧
    ∃ i : Fin MAX_CLIENTS,
      (zero_handle_registry.clients i).active = false ∧
      (∀ j, j < i → (zero_handle_registry.clients j).active = true) ∧
      (add_client 9 zero_handle_registry).2 = (i.val : Int) + 1 ∧
      (add_client 9 zero_handle_registry).1.clients i =
        { sockfd := 9, id := (i.val : Int) + 1, room := NUL, active := true } ∧
      (∀ j, j ≠ i → (add_client 9 zero_handle_registry).1.clients j =
        zero_handle_registry.clients j) ∧
      (add_client 9 zero_handle_registry).1.disconnected_count =
        zero_handle_registry.disconnected_count :=
  ⟨⟨2, by decide⟩, C2_add_client_lowest_free zero_handle_registry 9 ⟨2, by decide⟩⟩

/-! ## Unregistration -/

theorem remove_client_by_index_free (idx : Int) (r : Registry) (i : Fin MAX_CLIENTS)
    (hi : slot_of_index idx = some i) (hfree : (r.clients i).active = false) :
    remove_client_by_index idx r = some (r, []) := by
  simp [remove_client_by_index, hi, hfree]

theorem remove_client_by_index_active (idx : Int) (r : Registry) (i : Fin MAX_CLIENTS)
    (hi : slot_of_index idx = some i) (hact : (r.clients i).active = true) :
    remove_client_by_index idx r = some (r.freed i, r.freed_events i) := by
  have hv := slot_of_index_val idx i hi
  simp [remove_client_by_index, hi, hact, Registry.freed, Registry.freed_events, hv]

theorem remove_client_by_id_free (id : Int) (r : Registry) (i : Fin MAX_CLIENTS)
    (hi : slot_of_index (id - 1) = some i) (hfree : (r.clients i).active = false) :
    remove_client_by_id id r = some (r, []) := by
  unfold remove_client_by_id
  split
  · rfl
  · exact remove_client_by_index_free _ r i hi hfree

theorem remove_client_by_id_active (id : Int) (r : Registry) (i : Fin MAX_CLIENTS)
    (hpos : 0 < id) (hi : slot_of_index (id - 1) = some i)
    (hact : (r.clients i).active = true) :
    remove_client_by_id id r = some (r.freed i, r.freed_events i) := by
  have hid : ¬ id ≤ 0 := by omega
  simp only [remove_client_by_id, hid, if_false]
  exact remove_client_by_index_active _ r i hi hact

theorem remove_client_by_id_shape (id : Int) (r r1 : Registry) (ev : List Event)
    (h : remove_client_by_id id r = some (r1, ev)) :
    r1 = r ∨ ∃ i, (r.clients i).active = true ∧ r1 = r.freed i := by
  unfold remove_client_by_id at h
  split at h
  · cases h; exact Or.inl rfl
  · unfold remove_client_by_index at h
    split at h
    · cases h
    · split at h
      · rename_i i hi hact
        cases h
        exact Or.inr ⟨i, hact, rfl⟩
      · cases h; exact Or.inl rfl

/-- C3: for an id between 1 and `MAX_CLIENTS`, `remove_client_by_id` returns, and a second
call on the state the first one left changes nothing and produces no event; so two calls in
a row leave the same table and the same disconnect counter and produce the same events (the
same closed handles) as one call. On a slot that is already free the first call itself
changes nothing and produces no event. -/
theorem C3_remove_client_by_id_idempotent (r : Registry) (id : Int)
    (h1 : 1 ≤ id) (h5 : id ≤ MAX_CLIENTS) :
    ∃ r1 ev, remove_client_by_id id r = some (r1, ev) ∧
      remove_client_by_id id r1 = some (r1, []) ∧
      remove_client_by_id_twice id r = some (r1, ev) ∧
      (∀ i, slot_of_index (id - 1) = some i → (r.clients i).active = false →
        r1 = r ∧ ev = []) := by
  obtain ⟨i, hi, -⟩ := slot_of_index_some (id - 1) (by omega) (by omega)
  cases hact : (r.clients i).active with
  | false =>
    have hrm := remove_client_by_id_free id r i hi hact
    refine ⟨r, [], hrm, hrm, ?_, fun _ _ _ => ⟨rfl, rfl⟩⟩
    simp [remove_client_by_id_twice, hrm]
  | true =>
    have hrm := remove_client_by_id_active id r i (by omega) hi hact
    have hrm2 := remove_client_by_id_free id (r.freed i) i hi (r.freed_active i)
    refine ⟨r.freed i, r.freed_events i, hrm, hrm2, ?_, ?_⟩
    · simp [remove_client_by_id_twice, hrm, hrm2]
    · intro j hj hfree
      rw [hi] at hj
      cases hj
      rw [hact] at hfree
      cases hfree

/-- C3 at the table `full_registry` and the id 3. -/
theorem C3_witness_id_3 :
    (1 : Int) ≤ 3 ∧ (3 : Int) ≤ MAX_CLIENTS ∧
    ∃ r1 ev, remove_client_by_id 3 full_registry = some (r1, ev) ∧
      remove_client_by_id 3 r1 = some (r1, []) ∧
      remove_client_by_id_twice 3 full_registry = some (r1, ev) ∧
      (∀ i, slot_of_index (3 - 1) = some i → (full_registry.clients i).active = false →
        r1 = full_registry ∧ ev = []) :=
  ⟨by decide, by decide,
    C3_remove_client_by_id_idempotent full_registry 3 (by decide) (by decide)⟩

/-- C5: from a table whose five slots are active, `remove_client_by_id k` for `k` between 1
and 5 frees slot `k - 1`, and the `add_client` that follows returns the id `k` again and puts
the new handle in slot `k - 1`, the other slots being those of the full table. -/
theorem C5_freed_slot_reused (r : Registry) (hfull : ∀ i, (r.clients i).active = true)
    (k : Int) (h1 : 1 ≤ k) (h5 : k ≤ MAX_CLIENTS) (h : Int) :
    ∃ r1 ev i, remove_client_by_id k r = some (r1, ev) ∧ (i.val : Int) + 1 = k ∧
      (r1.clients i).active = false ∧
      (add_client h r1).2 = k ∧
      (add_client h r1).1.clients i = { sockfd := h, id := k, room := NUL, active := true } ∧
      (∀ j, j ≠ i → (add_client h r1).1.clients j = r.clients j) := by
  obtain ⟨i, hi, hval⟩ := slot_of_index_some (k - 1) (by omega) (by omega)
  have hrm := remove_client_by_id_active k r i (by omega) hi (hfull i)
  have hk : (i.val : Int) + 1 = k := by omega
  refine ⟨r.freed i, r.freed_events i, i, hrm, hk, r.freed_active i, ?_⟩
  rw [add_client_first_free h _ i (r.freed_active i)
    (fun j hj => by rw [r.freed_other i j (ne_of_lt hj)]; exact hfull j)]
  refine ⟨hk, ?_, ?_⟩
  · simp [Registry.set, hk]
  · intro j hj
    rw [Registry.set_clients_other _ _ _ _ hj, r.freed_other i j hj]

/-- C5 at the table `full_registry`, the id 3 and the new handle 9. -/
theorem C5_witness_id_3 :
    (∀ i, (full_registry.clients i).active = true) ∧ (1 : Int) ≤ 3 ∧
    (3 : Int) ≤ MAX_CLIENTS ∧
    ∃ r1 ev i, remove_client_by_id 3 full_registry = some (r1, ev) ∧ (i.val : Int) + 1 = 3 ∧
      (r1.clients i).active = false ∧
      (add_client 9 r1).2 = 3 ∧
      (add_client 9 r1).1.clients i = { sockfd := 9, id := 3, room := NUL, active := true } ∧
      (∀ j, j ≠ i → (add_client 9 r1).1.clients j = full_registry.clients j) :=
  ⟨fun _ => rfl, by decide, by decide,
    C5_freed_slot_reused full_registry (fun _ => rfl) 3 (by decide) (by decide) 9⟩

/-! ## Broadcast to a room -/

theorem broadcast_room_scan_eq (room : Char) (msg : Str) (e : Int) (r : Registry)
    (l : List (Fin MAX_CLIENTS)) :
    broadcast_room_scan room msg e r l =
      (l.filter (fun i => (r.clients i).active && (r.clients i).room == room &&
          (r.clients i).sockfd != e && decide (0 < (r.clients i).sockfd))).map
        (fun i => Event.send (r.clients i).sockfd msg) := by
  induction l with
  | nil => rfl
  | cons i rest ih =>
    simp only [broadcast_room_scan, ih, send_to_client, List.filter_cons]
    by_cases ha : (r.clients i).active = true <;>
    by_cases hr : (r.clients i).room = room <;>
    by_cases he : (r.clients i).sockfd = e <;>
    by_cases hp : 0 < (r.clients i).sockfd <;>
    simp [ha, hr, he, hp, not_le.mpr, not_lt.mp]

theorem broadcast_room_eq (room : Char) (msg : Str) (e : Int) (r : Registry) :
    broadcast_room room msg e r = room_deliveries r room msg e :=
  broadcast_room_scan_eq room msg e r slots

theorem room_deliveries_of_positive (r : Registry) (room : Char) (msg : Str) (e : Int)
    (hpos : ∀ i, (r.clients i).active = true → 0 < (r.clients i).sockfd) :
    room_deliveries r room msg e =
      (slots.filter (fun i => (r.clients i).active && (r.clients i).room == room &&
          (r.clients i).sockfd != e)).map (fun i => Event.send (r.clients i).sockfd msg) := by
  unfold room_deliveries
  congr 1
  apply List.filter_congr
  intro i _
  cases hact : (r.clients i).active with
  | false => simp
  | true => simp [hpos i hact]

/-- C4: in a table whose active slots hold positive handles (a handle is stored only by
`add_client`, for a descriptor `accept` returned, and descriptor 0 is never one of those),
`broadcast_room room msg e` sends `msg` exactly once to each slot that is active, has room
`room` and has a handle different from `e`, in increasing order of slot index (the slots
visited are 0, 1, 2, 3, 4), and does nothing else: no slot that is inactive, in another
room or with handle `e` is sent anything. -/
theorem C4_broadcast_room_recipients (r : Registry) (room : Char) (msg : Str) (e : Int)
    (hpos : ∀ i, (r.clients i).active = true → 0 < (r.clients i).sockfd) :
    slots = [0, 1, 2, 3, 4] ∧
    broadcast_room room msg e r =
      (slots.filter (fun i => (r.clients i).active && (r.clients i).room == room &&
          (r.clients i).sockfd != e)).map (fun i => Event.send (r.clients i).sockfd msg) :=
  ⟨slots_eq, (broadcast_room_eq room msg e r).trans
    (room_deliveries_of_positive r room msg e hpos)⟩

/-- C4 at the table `full_registry`, the room A and the excluded handle 4: of the two
members of room A, in slots 0 and 3, the one with handle 7 is sent the message. -/
theorem C4_witness_room_A :
    (∀ i, (full_registry.clients i).active = true → 0 < (full_registry.clients i).sockfd) ∧
    broadcast_room 'A' "hi\n".toList 4 full_registry = [Event.send 7 "hi\n".toList] :=
  ⟨by decide,
    (C4_broadcast_room_recipients full_registry 'A' "hi\n".toList 4 (by decide)).2.trans
      (by decide)⟩

/-! ## The steps of a session and the ids of the slots -/

theorem change_room_shape (id : Int) (room : Char) (r r1 : Registry)
    (h : change_room id room r = some r1) :
    r1 = r ∨ ∃ i, (r.clients i).active = true ∧
      r1 = r.set i { r.clients i with room := room } := by
  unfold change_room at h
  split at h
  · cases h; exact Or.inl rfl
  · split at h
    · cases h
    · split at h
      · rename_i i hi hact
        cases h
        exact Or.inr ⟨i, hact, rfl⟩
      · cases h; exact Or.inl rfl

theorem handle_client_closed_shape (s : Session) (r r1 : Registry)
    (ev : List Event) (go : Bool) (h : handle_client_closed s r = some (r1, ev, go)) :
    ∃ ev1, remove_client_by_id s.client_id r = some (r1, ev1) := by
  unfold handle_client_closed at h
  split at h
  · cases h
  · rename_i r2 ev2 heq
    cases h
    exact ⟨ev2, heq⟩

theorem handle_client_line_shape (s : Session) (buf : Str) (r r1 : Registry)
    (ev : List Event) (go : Bool) (h : handle_client_line s buf r = some (r1, ev, go)) :
    r1 = r ∨
    (∃ c, is_room_letter c = true ∧ r1 = r.set s.idx { r.clients s.idx with room := c }) ∨
    (∃ ev1, remove_client_by_id s.client_id r = some (r1, ev1)) := by
  unfold handle_client_line at h
  dsimp only at h
  split at h
  · split at h
    · cases h
    · rename_i r2 ev2 heq
      cases h
      exact Or.inr (Or.inr ⟨ev2, heq⟩)
  · split at h
    · split at h
      · rename_i hc
        cases h
        exact Or.inr (Or.inl ⟨_, hc, rfl⟩)
      · cases h; exact Or.inl rfl
    · split at h
      · rename_i hc
        cases h
        exact Or.inr (Or.inl ⟨_, hc.2, rfl⟩)
      · split at h
        · cases h; exact Or.inl rfl
        · cases h; exact Or.inl rfl

theorem handle_client_step_shape (s : Session) (recv : Option Str) (r r1 : Registry)
    (ev : List Event) (go : Bool) (h : handle_client_step s recv r = some (r1, ev, go)) :
    r1 = r ∨
    (∃ c, is_room_letter c = true ∧ r1 = r.set s.idx { r.clients s.idx with room := c }) ∨
    (∃ ev1, remove_client_by_id s.client_id r = some (r1, ev1)) := by
  unfold handle_client_step at h
  dsimp only at h
  split at h
  · exact Or.inr (Or.inr (handle_client_closed_shape s r r1 ev go h))
  · split at h
    · exact Or.inr (Or.inr (handle_client_closed_shape s r r1 ev go h))
    · split at h
      · cases h; exact Or.inl rfl
      · exact handle_client_line_shape s _ r r1 ev go h

theorem ids_by_position_set (r : Registry) (i : Fin MAX_CLIENTS) (c : client_t)
    (hr : r.ids_by_position) (hc : c.id = (i.val : Int) + 1) :
    (r.set i c).ids_by_position := by
  intro j
  by_cases hj : j = i
  · subst hj; rw [Registry.set_clients_same]; exact hc
  · rw [Registry.set_clients_other _ _ _ _ hj]; exact hr j

theorem ids_by_position_freed (r : Registry) (i : Fin MAX_CLIENTS) (hr : r.ids_by_position) :
    (r.freed i).ids_by_position := by
  intro j
  by_cases hj : j = i
  · subst hj; simpa [Registry.freed] using hr j
  · rw [Registry.freed_other _ _ _ hj]; exact hr j

theorem step_keeps_ids (r r1 : Registry) (hs : Step r r1) (hr : r.ids_by_position) :
    r1.ids_by_position := by
  cases hs with
  | register sockfd =>
    rcases add_client_scan_shape sockfd r slots with h | ⟨i, -, h⟩
    · unfold add_client; rw [h]; exact hr
    · unfold add_client; rw [h]; exact ids_by_position_set r i _ hr rfl
  | unregister _ cid ev h =>
    rcases remove_client_by_id_shape cid r r1 ev h with h | ⟨i, -, h⟩
    · rw [h]; exact hr
    · rw [h]; exact ids_by_position_freed r i hr
  | set_room _ cid room h =>
    rcases change_room_shape cid room r r1 h with h | ⟨i, -, h⟩
    · rw [h]; exact hr
    · rw [h]; exact ids_by_position_set r i _ hr (hr i)
  | session _ s recv ev go h =>
    rcases handle_client_step_shape s recv r r1 ev go h with h | ⟨c, -, h⟩ | ⟨ev1, h⟩
    · rw [h]; exact hr
    · rw [h]; exact ids_by_position_set r s.idx _ hr (hr s.idx)
    · rcases remove_client_by_id_shape _ r r1 ev1 h with h | ⟨i, -, h⟩
      · rw [h]; exact hr
      · rw [h]; exact ids_by_position_freed r i hr

theorem reachable_ids (r : Registry) (h : Reachable r) : r.ids_by_position := by
  induction h with
  | init => intro i; rfl
  | step r r1 _ hs ih => exact step_keeps_ids r r1 hs ih

/-- C6: in every state reachable from the initial table by registrations, unregistrations,
changes of room and session steps, every active slot at index `i` has id `i + 1`; so two
active slots with the same id are the same slot, and a slot that is active before and after
a step has the same id before and after it. -/
theorem C6_active_id_is_position (r : Registry) (hreach : Reachable r) :
    (∀ i, (r.clients i).active = true → (r.clients i).id = (i.val : Int) + 1) ∧
    (∀ i j, (r.clients i).active = true → (r.clients j).active = true →
      (r.clients i).id = (r.clients j).id → i = j) ∧
    (∀ r1, Step r r1 → ∀ i, (r.clients i).active = true → (r1.clients i).active = true →
      (r1.clients i).id = (r.clients i).id) := by
  have hr := reachable_ids r hreach
  refine ⟨fun i _ => hr i, ?_, ?_⟩
  · intro i j _ _ hij
    rw [hr i, hr j] at hij
    exact Fin.ext (by omega)
  · intro r1 hs i _ _
    rw [step_keeps_ids r r1 hs hr i, hr i]

/-- C6 at the state the initial table is in after the registrations of the handles 4 and 5. -/
theorem C6_witness_two_registered :
    Reachable (add_client 5 (add_client 4 init_registry).1).1 ∧
    (∀ i, ((add_client 5 (add_client 4 init_registry).1).1.clients i).active = true →
      ((add_client 5 (add_client 4 init_registry).1).1.clients i).id = (i.val : Int) + 1) ∧
    (∀ i j, ((add_client 5 (add_client 4 init_registry).1).1.clients i).active = true →
      ((add_client 5 (add_client 4 init_registry).1).1.clients j).active = true →
      ((add_client 5 (add_client 4 init_registry).1).1.clients i).id =
        ((add_client 5 (add_client 4 init_registry).1).1.clients j).id → i = j) ∧
    (∀ r1, Step (add_client 5 (add_client 4 init_registry).1).1 r1 → ∀ i,
      ((add_client 5 (add_client 4 init_registry).1).1.clients i).active = true →
      (r1.clients i).active = true →
      (r1.clients i).id = ((add_client 5 (add_client 4 init_registry).1).1.clients i).id) :=
  ⟨Reachable.step _ _ (Reachable.step _ _ Reachable.init (Step.register _ 4))
      (Step.register _ 5),
    C6_active_id_is_position _
      (Reachable.step _ _ (Reachable.step _ _ Reachable.init (Step.register _ 4))
        (Step.register _ 5))⟩

/-! ## The lines of a session -/

theorem room_letter_cases (c : Char) (h : c = 'A' ∨ c = 'B' ∨ c = 'C') :
    is_room_letter c = true := by
  rcases h with h | h | h <;> rw [h] <;> decide

theorem fmt_d_client_id_length (s : Session) : (fmt_d s.client_id).length = 1 := by
  have h : ∀ idx : Fin MAX_CLIENTS, (fmt_d ((idx.val : Int) + 1)).length = 1 := by decide
  exact h s.idx

theorem snprintf_of_le (size : Nat) (text : Str) (h : text.length ≤ size - 1) :
    snprintf size text = text :=
  List.take_of_length_le h

theorem strip_crlf_append (l t : Str) (ht : ∀ c ∈ t, c = '\n' ∨ c = '\r') :
    strip_crlf (l ++ t) = strip_crlf l := by
  unfold strip_crlf
  rw [List.reverse_append, List.dropWhile_append_of_pos]
  intro a ha
  rcases ht a (List.mem_reverse.mp ha) with h | h <;> simp [h]

theorem moved_notice_fits (s : Session) (c : Char) :
    snprintf 256 ("[Server] Client ".toList ++ fmt_d s.client_id ++ " moved to Room".toList ++
      [c] ++ ".\n".toList) =
    "[Server] Client ".toList ++ fmt_d s.client_id ++ " moved to Room".toList ++ [c] ++
      ".\n".toList := by
  apply snprintf_of_le
  have h1 := fmt_d_client_id_length s
  have h2 : "[Server] Client ".toList.length = 16 := by decide
  have h3 : " moved to Room".toList.length = 14 := by decide
  have h4 : ".\n".toList.length = 2 := by decide
  simp only [List.length_append, h1, h2, h3, h4, List.length_singleton]
  omega

theorem joined_notice_fits (s : Session) (c : Char) :
    snprintf 256 ("[Server] Client ".toList ++ fmt_d s.client_id ++ " joined Room".toList ++
      [c] ++ ".\n".toList) =
    "[Server] Client ".toList ++ fmt_d s.client_id ++ " joined Room".toList ++ [c] ++
      ".\n".toList := by
  apply snprintf_of_le
  have h1 := fmt_d_client_id_length s
  have h2 : "[Server] Client ".toList.length = 16 := by decide
  have h3 : " joined Room".toList.length = 12 := by decide
  have h4 : ".\n".toList.length = 2 := by decide
  simp only [List.length_append, h1, h2, h3, h4, List.length_singleton]
  omega

theorem you_joined_fits (c : Char) :
    snprintf 256 ("You joined Room".toList ++ [c] ++ "\n".toList) =
    "You joined Room".toList ++ [c] ++ "\n".toList := by
  apply snprintf_of_le
  have h2 : "You joined Room".toList.length = 15 := by decide
  have h4 : "\n".toList.length = 1 := by decide
  simp only [List.length_append, h2, h4, List.length_singleton]
  omega

theorem send_to_client_eq (sockfd : Int) (msg : Str) :
    send_to_client sockfd msg = if 0 < sockfd then [Event.send sockfd msg] else [] := by
  unfold send_to_client
  by_cases hp : 0 < sockfd
  · rw [if_neg (not_le.mpr hp), if_pos hp]
  · rw [if_pos (not_lt.mp hp), if_neg hp]

theorem handle_client_step_text (s : Session) (r : Registry) (line t : Str)
    (hline : line ≠ []) (hs : strip_crlf line = line) (hc : c_str line = line)
    (ht : ∀ c ∈ t, c = '\n' ∨ c = '\r') :
    handle_client_step s (some (line ++ t)) r = handle_client_line s line r := by
  have h1 : ¬ (line ++ t).length = 0 := by
    rw [List.length_eq_zero]
    simp [hline]
  have h2 : ¬ (strip_crlf (line ++ t)).length = 0 := by
    rw [strip_crlf_append line t ht, hs, List.length_eq_zero]
    exact hline
  unfold handle_client_step
  dsimp only
  rw [if_neg h1, if_neg h2, strip_crlf_append line t ht, hs, hc]

theorem handle_client_line_room (s : Session) (r : Registry) (c : Char) (rest : Str)
    (hc : is_room_letter c = true) :
    handle_client_line s ("/room ".toList ++ c :: rest) r =
      some (r.set s.idx { r.clients s.idx with room := c },
        send_to_client s.sockfd ("[Server] Client ".toList ++ fmt_d s.client_id ++
          " moved to Room".toList ++ [c] ++ ".\n".toList) ++
        room_deliveries (r.set s.idx { r.clients s.idx with room := c }) c
          ("[Server] Client ".toList ++ fmt_d s.client_id ++ " joined Room".toList ++ [c] ++
            ".\n".toList) s.sockfd, true) := by
  have hl : "/room ".toList = ['/', 'r', 'o', 'o', 'm', ' '] := by decide
  have he : "EXIT!".toList = ['E', 'X', 'I', 'T', '!'] := by decide
  rw [← moved_notice_fits, ← joined_notice_fits, ← broadcast_room_eq]
  simp [handle_client_line, hl, he, char_at, strncmp_eq, hc]

theorem handle_client_line_bare (s : Session) (r : Registry) (c : Char)
    (hc : is_room_letter c = true) :
    handle_client_line s [c] r =
      some (r.set s.idx { r.clients s.idx with room := c },
        send_to_client s.sockfd ("You joined Room".toList ++ [c] ++ "\n".toList) ++
        room_deliveries (r.set s.idx { r.clients s.idx with room := c }) c
          ("[Server] Client ".toList ++ fmt_d s.client_id ++ " joined Room".toList ++ [c] ++
            ".\n".toList) s.sockfd, true) := by
  have hl : "/room ".toList = ['/', 'r', 'o', 'o', 'm', ' '] := by decide
  have he : "EXIT!".toList = ['E', 'X', 'I', 'T', '!'] := by decide
  rw [← you_joined_fits, ← joined_notice_fits, ← broadcast_room_eq]
  simp [handle_client_line, hl, he, char_at, strncmp_eq, hc]

/-! ## Chat lines -/

theorem handle_client_line_invalid_room (s : Session) (r : Registry) (rest : Str)
    (hc : is_room_letter (char_at rest 0) = false) :
    handle_client_line s ("/room ".toList ++ rest) r =
      some (r, send_to_client s.sockfd "Invalid room. Use A or B or C\n".toList, true) := by
  have hl : "/room ".toList = ['/', 'r', 'o', 'o', 'm', ' '] := by decide
  have he : "EXIT!".toList = ['E', 'X', 'I', 'T', '!'] := by decide
  have hc1 : is_room_letter (rest[0]?.getD NUL) = false := by simpa [char_at] using hc
  simp [handle_client_line, hl, he, strncmp_eq, char_at, hc1]

/-- C8 fails on the code: for client 3 of `full_registry` (slot 2, handle 6, in no room) the
line `/room AB`, whose text after `/room ` is not exactly `A`, `B` or `C`, is not answered
with the invalid-room error: only the byte after `/room ` is looked at, the client is moved
to room A, is sent the moved notice, and the members of room A are sent the joined notice. -/
theorem C8_room_prefix_accepted :
    "AB".toList ≠ "A".toList ∧ "AB".toList ≠ "B".toList ∧ "AB".toList ≠ "C".toList ∧
    (full_registry.clients 2).room = NUL ∧
    handle_client_step { sockfd := 6, idx := 2 } (some ("/room ".toList ++ "AB".toList))
        full_registry =
      some (full_registry.set 2 { sockfd := 6, id := 3, room := 'A', active := true },
        [Event.send 6 "[Server] Client 3 moved to RoomA.\n".toList,
         Event.send 4 "[Server] Client 3 joined RoomA.\n".toList,
         Event.send 7 "[Server] Client 3 joined RoomA.\n".toList], true) := by
  refine ⟨?_, ?_, ?_, ?_, ?_⟩ <;> decide

/-- C9, amended: for `X` one of A, B, C, a session with id `N` and any registry state, the
line `/room X` and the bare line `X` (each followed by any line feeds and carriage returns)
both set the room of the slot of the session to `X`, leave the rest of the registry
unchanged, and send `[Server] Client N joined RoomX.` to each active slot of room `X` whose
handle is positive and is not the handle of the sender, in slot order, and to no one else.
The notice to the sender, sent first and only when the handle of the sender is positive, is
`You joined RoomX` for the bare line and `[Server] Client N moved to RoomX.` for the line
`/room X`. Sending the same line again in the state reached gives the same state and the
same events. -/
theorem C9_join_room (r : Registry) (s : Session) (X : Char) (t : Str)
    (hX : X = 'A' ∨ X = 'B' ∨ X = 'C') (ht : ∀ c ∈ t, c = '\n' ∨ c = '\r') :
    ∃ r1 others,
      r1 = r.set s.idx { r.clients s.idx with room := X } ∧
      others = (slots.filter (fun i => (r1.clients i).active && (r1.clients i).room == X &&
          (r1.clients i).sockfd != s.sockfd && decide (0 < (r1.clients i).sockfd))).map
        (fun i => Event.send (r1.clients i).sockfd
          ("[Server] Client ".toList ++ fmt_d s.client_id ++ " joined Room".toList ++ [X] ++
            ".\n".toList)) ∧
      handle_client_step s (some ("/room ".toList ++ [X] ++ t)) r =
        some (r1, (if 0 < s.sockfd then
            [Event.send s.sockfd ("[Server] Client ".toList ++ fmt_d s.client_id ++
              " moved to Room".toList ++ [X] ++ ".\n".toList)]
          else []) ++ others, true) ∧
      handle_client_step s (some ([X] ++ t)) r =
        some (r1, (if 0 < s.sockfd then
            [Event.send s.sockfd ("You joined Room".toList ++ [X] ++ "\n".toList)]
          else []) ++ others, true) ∧
      handle_client_step s (some ("/room ".toList ++ [X] ++ t)) r1 =
        handle_client_step s (some ("/room ".toList ++ [X] ++ t)) r ∧
      handle_client_step s (some ([X] ++ t)) r1 = handle_client_step s (some ([X] ++ t)) r := by
  have hc := room_letter_cases X hX
  have hs1 : strip_crlf ("/room ".toList ++ [X]) = "/room ".toList ++ [X] := by
    rcases hX with h | h | h <;> rw [h] <;> decide
  have hc1 : c_str ("/room ".toList ++ [X]) = "/room ".toList ++ [X] := by
    rcases hX with h | h | h <;> rw [h] <;> decide
  have hs2 : strip_crlf [X] = [X] := by
    rcases hX with h | h | h <;> rw [h] <;> decide
  have hc2 : c_str [X] = [X] := by
    rcases hX with h | h | h <;> rw [h] <;> decide
  have e1 : ∀ r0, handle_client_step s (some ("/room ".toList ++ [X] ++ t)) r0 =
      handle_client_line s ("/room ".toList ++ [X]) r0 := fun r0 =>
    handle_client_step_text s r0 _ t (by simp) hs1 hc1 ht
  have e2 : ∀ r0, handle_client_step s (some ([X] ++ t)) r0 = handle_client_line s [X] r0 :=
    fun r0 => handle_client_step_text s r0 _ t (by simp) hs2 hc2 ht
  refine ⟨_, _, rfl, rfl, ?_, ?_, ?_, ?_⟩
  · rw [e1, handle_client_line_room s r X [] hc, send_to_client_eq]; rfl
  · rw [e2, handle_client_line_bare s r X hc, send_to_client_eq]; rfl
  · rw [e1, e1, handle_client_line_room s _ X [] hc, handle_client_line_room s r X [] hc,
      Registry.set_set_room]
  · rw [e2, e2, handle_client_line_bare s _ X hc, handle_client_line_bare s r X hc,
      Registry.set_set_room]

/-- C9 at the table `full_registry`, for client 3 (slot 2, handle 6, in no room), the room B
and a line feed as terminator: the client is moved to room B and client 2, the member of
room B, with handle 5, is sent the joined notice. -/
theorem C9_witness_room_B :
    (∀ c ∈ "\n".toList, c = '\n' ∨ c = '\r') ∧
    handle_client_step { sockfd := 6, idx := 2 }
        (some ("/room ".toList ++ ['B'] ++ "\n".toList)) full_registry =
      some (full_registry.set 2 { sockfd := 6, id := 3, room := 'B', active := true },
        [Event.send 6 "[Server] Client 3 moved to RoomB.\n".toList,
         Event.send 5 "[Server] Client 3 joined RoomB.\n".toList], true) ∧
    handle_client_step { sockfd := 6, idx := 2 } (some (['B'] ++ "\n".toList)) full_registry =
      some (full_registry.set 2 { sockfd := 6, id := 3, room := 'B', active := true },
        [Event.send 6 "You joined RoomB\n".toList,
         Event.send 5 "[Server] Client 3 joined RoomB.\n".toList], true) := by
  obtain ⟨r1, others, hr1, hothers, hslash, hbare, -, -⟩ :=
    C9_join_room full_registry { sockfd := 6, idx := 2 } 'B' "\n".toList
      (by decide) (by decide)
  subst hr1 hothers
  exact ⟨by decide, hslash.trans (by decide), hbare.trans (by decide)⟩

/-- C9 as stated fails: for client 3 of `full_registry` the line `/room A` makes the handler
send the sender `[Server] Client 3 moved to RoomA.`, which does not contain `joined RoomA`,
and no other notice; and in `zero_handle_registry`, when client 2 (handle 4) sends `A`,
client 1, an active member of room A with the handle 0, is sent nothing. -/
theorem C9_counterexample_moved_notice :
    handle_client_step { sockfd := 6, idx := 2 } (some "/room A".toList) full_registry =
      some (full_registry.set 2 { sockfd := 6, id := 3, room := 'A', active := true },
        [Event.send 6 "[Server] Client 3 moved to RoomA.\n".toList,
         Event.send 4 "[Server] Client 3 joined RoomA.\n".toList,
         Event.send 7 "[Server] Client 3 joined RoomA.\n".toList], true) ∧
    ¬ "joined RoomA".toList <:+: "[Server] Client 3 moved to RoomA.\n".toList ∧
    (zero_handle_registry.clients 0).active = true ∧
    (zero_handle_registry.clients 0).room = 'A' ∧
    (zero_handle_registry.clients 0).sockfd ≠ 4 ∧
    handle_client_step { sockfd := 4, idx := 1 } (some "A".toList) zero_handle_registry =
      some (zero_handle_registry, [Event.send 4 "You joined RoomA\n".toList], true) := by
  refine ⟨?_, ?_, ?_, ?_, ?_, ?_⟩ <;> decide

/-! ## End-to-end scenario -/

/-- C10: from the initial table, the connection with descriptor 4 is registered with id 1
and, once its session has started, its line `A` is answered with `You joined RoomA`; the
connection with descriptor 5 is registered with id 2 and its line `A` makes the handler send
`[Server] Client 2 joined RoomA.` to client 1; the line `hello` of client 1 makes the handler
send `Client1@RoomA: hello` to client 2 and to no one else; the line `EXIT!` of client 1 is
answered with `Goodbye!`, its descriptor is closed and its session ends; in the final table
slot 1 is the only active slot, with id 2 and room A, and `/list` prints exactly that. -/
theorem C10_end_to_end :
    main_accept 4 true init_registry =
      some (scenario_1,
        [Event.printf "[Server] New connection accepted, assigned id=1 sock=4\n".toList,
         Event.send 4 "Welcome! Your client id is 1\n".toList], some 1) ∧
    handle_client_start 4 scenario_1 =
      some (some { sockfd := 4, idx := 0 },
        [Event.send 4 "Welcome! Enter room: A / B / C (example: A)\n".toList]) ∧
    handle_client_step { sockfd := 4, idx := 0 } (some "A".toList) scenario_1 =
      some (scenario_2, [Event.send 4 "You joined RoomA\n".toList], true) ∧
    main_accept 5 true scenario_2 =
      some (scenario_3,
        [Event.printf "[Server] New connection accepted, assigned id=2 sock=5\n".toList,
         Event.send 5 "Welcome! Your client id is 2\n".toList], some 2) ∧
    handle_client_start 5 scenario_3 =
      some (some { sockfd := 5, idx := 1 },
        [Event.send 5 "Welcome! Enter room: A / B / C (example: A)\n".toList]) ∧
    handle_client_step { sockfd := 5, idx := 1 } (some "A".toList) scenario_3 =
      some (scenario_4,
        [Event.send 5 "You joined RoomA\n".toList,
         Event.send 4 "[Server] Client 2 joined RoomA.\n".toList], true) ∧
    handle_client_step { sockfd := 4, idx := 0 } (some "hello".toList) scenario_4 =
      some (scenario_4, [Event.send 5 "Client1@RoomA: hello\n".toList], true) ∧
    handle_client_step { sockfd := 4, idx := 0 } (some "EXIT!".toList) scenario_4 =
      some (scenario_5,
        [Event.send 4 "Goodbye!\n".toList, Event.close 4,
         Event.printf "[Server] Client 1 disconnected. Total disconnected: 1\n".toList],
        false) ∧
    server_console_step "/list\n".toList scenario_5 =
      [Event.printf "Client list:\n".toList,
       Event.printf "  slot 1 empty\n".toList,
       Event.printf "  id=2 sock=5 room=A\n".toList,
       Event.printf "  slot 3 empty\n".toList,
       Event.printf "  slot 4 empty\n".toList,
       Event.printf "  slot 5 empty\n".toList] ∧
    (∀ i, (scenario_5.clients i).active = true ↔ i = 1) ∧
    scenario_5.clients 1 = { sockfd := 5, id := 2, room := 'A', active := true } := by
  refine ⟨?_, ?_, ?_, ?_, ?_, ?_, ?_, ?_, ?_, ?_, ?_⟩ <;> decide

/-! ## Change of room -/

/-- C12: for an id between 1 and `MAX_CLIENTS`, `change_room` returns; when slot `id - 1` is
inactive the state it returns is the state it was given, and when the slot is active the
only thing that differs is the room field of that slot, which is the new room: the active
flag, the handle and the id of the slot, every other slot and the disconnect counter are
unchanged. -/
theorem C12_change_room_frame (r : Registry) (id : Int) (room : Char)
    (h1 : 1 ≤ id) (h5 : id ≤ MAX_CLIENTS) :
    ∃ i r1, slot_of_index (id - 1) = some i ∧ (i.val : Int) + 1 = id ∧
      change_room id room r = some r1 ∧
      ((r.clients i).active = false → r1 = r) ∧
      ((r.clients i).active = true → (r1.clients i).room = room) ∧
      (r1.clients i).active = (r.clients i).active ∧
      (r1.clients i).sockfd = (r.clients i).sockfd ∧
      (r1.clients i).id = (r.clients i).id ∧
      (∀ j, j ≠ i → r1.clients j = r.clients j) ∧
      r1.disconnected_count = r.disconnected_count := by
  obtain ⟨i, hi, hval⟩ := slot_of_index_some (id - 1) (by omega) (by omega)
  have hid : ¬ id ≤ 0 := by omega
  cases hact : (r.clients i).active with
  | false =>
    have hcr : change_room id room r = some r := by
      simp [change_room, hid, hi, hact]
    exact ⟨i, r, hi, by omega, hcr, fun _ => rfl, (fun h => by rw [hact] at h; cases h),
      rfl, rfl, rfl, fun _ _ => rfl, rfl⟩
  | true =>
    have hcr : change_room id room r = some (r.set i { r.clients i with room := room }) := by
      simp [change_room, hid, hi, hact]
    refine ⟨i, _, hi, by omega, hcr, (fun h => by rw [hact] at h; cases h), fun _ => ?_,
      ?_, ?_, ?_, ?_, rfl⟩
    · rw [Registry.set_clients_same]
    · rw [Registry.set_clients_same]
    · rw [Registry.set_clients_same]
    · rw [Registry.set_clients_same]
    · intro j hj; exact Registry.set_clients_other _ _ _ _ hj

/-- C12 at the table `full_registry`, the id 3 and the room B. -/
theorem C12_witness_id_3 :
    (1 : Int) ≤ 3 ∧ (3 : Int) ≤ MAX_CLIENTS ∧
    ∃ i r1, slot_of_index (3 - 1) = some i ∧ (i.val : Int) + 1 = 3 ∧
      change_room 3 'B' full_registry = some r1 ∧
      ((full_registry.clients i).active = false → r1 = full_registry) ∧
      ((full_registry.clients i).active = true → (r1.clients i).room = 'B') ∧
      (r1.clients i).active = (full_registry.clients i).active ∧
      (r1.clients i).sockfd = (full_registry.clients i).sockfd ∧
      (r1.clients i).id = (full_registry.clients i).id ∧
      (∀ j, j ≠ i → r1.clients j = full_registry.clients j) ∧
      r1.disconnected_count = full_registry.disconnected_count :=
  ⟨by decide, by decide, C12_change_room_frame full_registry 3 'B' (by decide) (by decide)⟩

/-! ## Lookup by handle -/

theorem find_index_by_sock_scan_none (sockfd : Int) (r : Registry)
    (l : List (Fin MAX_CLIENTS))
    (h : ∀ i ∈ l, (r.clients i).active = true → (r.clients i).sockfd ≠ sockfd) :
    find_index_by_sock_scan sockfd r l = -1 := by
  induction l with
  | nil => rfl
  | cons i rest ih =>
    have hrest := ih (fun j hj => h j (List.mem_cons_of_mem i hj))
    have hi := h i (List.mem_cons_self i rest)
    unfold find_index_by_sock_scan
    cases hact : (r.clients i).active with
    | false => simpa using hrest
    | true => simpa [hi hact] using hrest

theorem find_index_by_sock_scan_first (sockfd : Int) (r : Registry)
    (pre post : List (Fin MAX_CLIENTS)) (i : Fin MAX_CLIENTS)
    (hpre : ∀ j ∈ pre, (r.clients j).active = true → (r.clients j).sockfd ≠ sockfd)
    (hact : (r.clients i).active = true) (hfd : (r.clients i).sockfd = sockfd) :
    find_index_by_sock_scan sockfd r (pre ++ i :: post) = (i.val : Int) := by
  induction pre with
  | nil => simp [find_index_by_sock_scan, hact, hfd]
  | cons j rest ih =>
    have hrest := ih (fun k hk => hpre k (List.mem_cons_of_mem j hk))
    have hj := hpre j (List.mem_cons_self j rest)
    rw [List.cons_append]
    unfold find_index_by_sock_scan
    cases hja : (r.clients j).active with
    | false => simpa using hrest
    | true => simpa [hj hja] using hrest

/-- C15: in a table in which no active slot holds the handle `h`, `find_index_by_sock h`
returns -1; and if `add_client h` on that table returns an id (not -1), then
`find_index_by_sock h` on the table `add_client` left returns that id minus one. -/
theorem C15_register_then_lookup (r : Registry) (h : Int)
    (hnew : ∀ i, (r.clients i).active = true → (r.clients i).sockfd ≠ h) :
    find_index_by_sock h r = -1 ∧
    ((add_client h r).2 ≠ -1 →
      find_index_by_sock h (add_client h r).1 = (add_client h r).2 - 1) := by
  refine ⟨find_index_by_sock_scan_none h r slots (fun i _ => hnew i), ?_⟩
  intro hid
  by_cases hfree : ∃ j, (r.clients j).active = false
  · obtain ⟨i, hi, hmin⟩ := exists_first_free r hfree
    rw [add_client_first_free h r i hi hmin]
    show find_index_by_sock h (r.set i _) = (i.val : Int) + 1 - 1
    unfold find_index_by_sock
    rw [slots_split i, find_index_by_sock_scan_first h _ _ _ i ?_
      (by rw [Registry.set_clients_same]) (by rw [Registry.set_clients_same])]
    · omega
    · intro j hj
      simp only [List.mem_filter, decide_eq_true_eq] at hj
      rw [Registry.set_clients_other _ _ _ _ (ne_of_lt hj.2)]
      exact hnew j
  · have hfull : ∀ i, (r.clients i).active = true := by
      intro i
      by_contra hc
      exact hfree ⟨i, by simpa using hc⟩
    rw [show add_client h r = (r, -1) from add_client_scan_full h r slots (fun i _ => hfull i)] at hid
    exact absurd rfl hid

/-- C15 at the table `zero_handle_registry`, whose active slots hold the handles 0 and 4,
and the new handle 9: it is registered with id 3 and then found at index 2. -/
theorem C15_witness_handle_9 :
    (∀ i, (zero_handle_registry.clients i).active = true →
      (zero_handle_registry.clients i).sockfd ≠ 9) ∧
    find_index_by_sock 9 zero_handle_registry = -1 ∧
    (add_client 9 zero_handle_registry).2 = 3 ∧
    find_index_by_sock 9 (add_client 9 zero_handle_registry).1 = 3 - 1 := by
  have h := C15_register_then_lookup zero_handle_registry 9 (by decide)
  have hid : (add_client 9 zero_handle_registry).2 = 3 := by decide
  refine ⟨by decide, h.1, hid, ?_⟩
  rw [h.2 (by rw [hid]; decide), hid]

/-! ## The slot of a session -/

theorem slot_of_client_id (s : Session) : slot_of_index (s.client_id - 1) = some s.idx := by
  have h := s.idx.isLt
  have hv : s.client_id - 1 = (s.idx.val : Int) := by unfold Session.client_id; omega
  rw [hv]
  obtain ⟨i, hi, hval⟩ := slot_of_index_some (s.idx.val : Int) (by omega) (by omega)
  rw [hi]
  exact congrArg some (Fin.ext (by omega))

theorem change_room_of_session (r : Registry) (s : Session) (c : Char)
    (hact : (r.clients s.idx).active = true) :
    change_room s.client_id c r = some (r.set s.idx { r.clients s.idx with room := c }) := by
  have hid : ¬ s.client_id ≤ 0 := by unfold Session.client_id; omega
  simp [change_room, hid, slot_of_client_id s, hact]

/-! ## Exit -/

theorem int_wrap_of_range (n : Int) (h1 : INT_MIN ≤ n) (h2 : n ≤ INT_MAX) :
    int_wrap n = n := by
  unfold int_wrap
  unfold INT_MIN at h1
  unfold INT_MAX at h2
  omega

theorem int_wrap_succ (n : Int) : int_wrap (int_wrap n + 1) = int_wrap (n + 1) := by
  unfold int_wrap
  omega

theorem count_registry_accept (n : Int) :
    add_client 4 (count_registry n) = (count_session n, 1) := by
  unfold add_client
  rw [slots_eq]
  rfl

theorem count_session_freed (n : Int) :
    (count_session n).freed 0 = count_registry (int_wrap (n + 1)) := by
  unfold Registry.freed count_registry
  congr 1
  funext i
  by_cases hi : i = 0
  · subst hi; rfl
  · rw [Function.update_noteq hi]
    unfold count_session Registry.set
    exact Function.update_noteq hi _ _

theorem count_session_step (n : Int) : Step (count_session n) ((count_session n).freed 0) :=
  Step.unregister _ _ 1 ((count_session n).freed_events 0)
    (remove_client_by_id_active 1 (count_session n) 0 (by decide) rfl rfl)

theorem count_session_disconnects (n : Int) :
    disconnects (count_session n) ((count_session n).freed 0) = 1 := by
  unfold disconnects
  rw [if_pos ⟨0, rfl, Registry.freed_active _ 0⟩]

theorem count_registry_disconnects (n : Int) :
    disconnects (count_registry n) (count_session n) = 0 := by
  unfold disconnects
  rw [if_neg]
  rintro ⟨i, hi, -⟩
  cases hi

/-- The table with no client and the counter at `k` is reached from the initial table by
`k` disconnects, as long as `k` is at most `INT_MAX`: each round registers a connection and
unregisters it. -/
theorem count_registry_run (n m : Int) (h : Run (count_registry n) m) :
    Run (count_session n) m := by
  have h1 : Run (count_session n)
      (m + disconnects (count_registry n) (count_session n)) := by
    have h2 := Run.step _ _ _ h (Step.register (count_registry n) 4)
    rw [count_registry_accept] at h2
    exact h2
  rw [count_registry_disconnects, add_zero] at h1
  exact h1

theorem count_session_run (n m : Int) (h : Run (count_session n) m) :
    Run ((count_session n).freed 0) (m + 1) := by
  have h1 := Run.step _ _ _ h (count_session_step n)
  rw [count_session_disconnects] at h1
  exact h1

/-- The table with no client and the counter at `k` is reached from the initial table by
`k` disconnects, as long as `k` is at most `INT_MAX`: each round registers a connection and
unregisters it. -/
theorem run_count (k : Nat) (hk : (k : Int) ≤ INT_MAX) : Run (count_registry k) k := by
  induction k with
  | zero => exact Run.init
  | succ k ih =>
    have hk0 : ((k + 1 : Nat) : Int) = (k : Int) + 1 := by push_cast; rfl
    rw [hk0] at hk ⊢
    have h := count_session_run _ _ (count_registry_run _ _ (ih (by omega)))
    rw [count_session_freed, int_wrap_of_range _ (by unfold INT_MIN; omega) hk] at h
    exact h

/-- The table `max_count_session`, with one client and the counter at `INT_MAX`, is reached
from the initial table by `INT_MAX` disconnects and one registration. -/
theorem run_max_count : Run max_count_session 2147483647 :=
  count_registry_run _ _ (run_count 2147483647 (by decide))

/-- C11, amended: for a session with a positive descriptor whose slot is active (a session
runs on the slot `find_index_by_sock` found active, with the descriptor `accept` returned,
which is never 0), in a room or not, the line `EXIT!` (followed by any line feeds and
carriage returns) makes the handler send `Goodbye!` to the sender, then unregister the slot
of the session and end the session: the handle of the slot is closed, the disconnect
message is printed, and in the state left (`r.freed` of the slot) the slot is inactive with
handle 0 and no room and keeps its id, and every other slot is unchanged. No other client
is sent anything. The disconnect counter is one more when it was below `INT_MAX`; the
counter is an `int`, and at `INT_MAX` the increment leaves `INT_MIN` (`int_wrap`). -/
theorem C11_exit_unregisters (r : Registry) (s : Session) (t : Str)
    (ht : ∀ c ∈ t, c = '\n' ∨ c = '\r')
    (hact : (r.clients s.idx).active = true)
    (hpos : 0 < s.sockfd) :
    handle_client_step s (some ("EXIT!".toList ++ t)) r =
      some (r.freed s.idx,
        [Event.send s.sockfd "Goodbye!\n".toList,
         Event.close (r.clients s.idx).sockfd,
         Event.printf ("[Server] Client ".toList ++ fmt_d s.client_id ++
           " disconnected. Total disconnected: ".toList ++
           fmt_d (int_wrap (r.disconnected_count + 1)) ++ "\n".toList)],
        false) ∧
    (r.freed s.idx).clients s.idx =
      { sockfd := 0, id := (r.clients s.idx).id, room := NUL, active := false } ∧
    (∀ j, j ≠ s.idx → (r.freed s.idx).clients j = r.clients j) ∧
    (r.freed s.idx).disconnected_count = int_wrap (r.disconnected_count + 1) ∧
    (INT_MIN ≤ r.disconnected_count → r.disconnected_count < INT_MAX →
      (r.freed s.idx).disconnected_count = r.disconnected_count + 1) := by
  have hstep : handle_client_step s (some ("EXIT!".toList ++ t)) r =
      handle_client_line s "EXIT!".toList r :=
    handle_client_step_text s r _ t (by decide) (by decide) (by decide) ht
  have hrm := remove_client_by_id_active s.client_id r s.idx
    (by unfold Session.client_id; omega) (slot_of_client_id s) hact
  refine ⟨?_, r.freed_same s.idx, fun j hj => r.freed_other s.idx j hj, rfl,
    fun h1 h2 => int_wrap_of_range _ (by omega) (by omega)⟩
  rw [hstep]
  unfold handle_client_line
  rw [if_pos rfl, hrm, send_to_client_eq, if_pos hpos]
  rfl

/-- C11 at the table `full_registry`, whose counter is 2, for client 1 (slot 0, handle 4)
and a line feed as terminator. -/
theorem C11_witness_client_1 :
    (full_registry.clients 0).active = true ∧
    handle_client_step { sockfd := 4, idx := 0 } (some ("EXIT!".toList ++ "\n".toList))
        full_registry =
      some (full_registry.freed 0,
        [Event.send 4 "Goodbye!\n".toList, Event.close 4,
         Event.printf "[Server] Client 1 disconnected. Total disconnected: 3\n".toList],
        false) ∧
    (full_registry.freed 0).disconnected_count = 2 + 1 :=
  ⟨by decide,
    (C11_exit_unregisters full_registry { sockfd := 4, idx := 0 } "\n".toList
      (by decide) (by decide) (by decide)).1.trans (by decide),
    (C11_exit_unregisters full_registry { sockfd := 4, idx := 0 } "\n".toList
      (by decide) (by decide) (by decide)).2.2.2.2 (by decide) (by decide)⟩

/-- C11 as stated fails: in `max_count_session`, reached from the initial table by
`INT_MAX` = 2147483647 disconnects and one registration, client 1 (slot 0, handle 4) sends
`EXIT!`. Its slot is freed, but the disconnect counter, an `int` at `INT_MAX`, is not one
more: it is -2147483648, as the message printed says. -/
theorem C11_counterexample_counter_wraps :
    Run max_count_session 2147483647 ∧
    max_count_session.disconnected_count = 2147483647 ∧
    (max_count_session.clients 0).active = true ∧
    handle_client_step { sockfd := 4, idx := 0 } (some "EXIT!\n".toList) max_count_session =
      some (max_count_session.freed 0,
        [Event.send 4 "Goodbye!\n".toList, Event.close 4,
         Event.printf
           "[Server] Client 1 disconnected. Total disconnected: -2147483648\n".toList],
        false) ∧
    (max_count_session.freed 0).disconnected_count = -2147483648 ∧
    (max_count_session.freed 0).disconnected_count ≠
      max_count_session.disconnected_count + 1 := by
  refine ⟨run_max_count, ?_, ?_, ?_, ?_, ?_⟩ <;> decide

/-! ## Lines of a client in no room -/

theorem fgets_scan_length_le (n : Nat) (pending : Str) :
    (fgets_scan n pending).length ≤ n := by
  induction n generalizing pending with
  | zero => simp [fgets_scan]
  | succ n ih =>
    cases pending with
    | nil => simp [fgets_scan]
    | cons c rest =>
      unfold fgets_scan
      split
      · simp
      · simpa using ih rest

/-- A line `fgets` stored in the buffer of `server_console` has at most `BUF_SIZE - 1`
bytes. -/
theorem fgets_length_le (pending line : Str) (h : fgets BUF_SIZE pending = some line) :
    line.length ≤ BUF_SIZE - 1 := by
  unfold fgets at h
  split at h
  · cases h
  · cases h
    exact fgets_scan_length_le _ _

theorem set_keeps_active (r : Registry) (i : Fin MAX_CLIENTS) (c : client_t)
    (hc : (r.clients i).active = true → c.active = true) (j : Fin MAX_CLIENTS)
    (hj : (r.clients j).active = true) : ((r.set i c).clients j).active = true := by
  by_cases hji : j = i
  · subst hji; rw [Registry.set_clients_same]; exact hc hj
  · rw [Registry.set_clients_other _ _ _ _ hji]; exact hj

/-- A step either frees no active slot and leaves the counter as it is, or frees one and
increments the counter as an `int`. -/
theorem step_counter (r r1 : Registry) (hs : Step r r1) :
    ((¬ ∃ i, (r.clients i).active = true ∧ (r1.clients i).active = false) ∧
      r1.disconnected_count = r.disconnected_count) ∨
    ((∃ i, (r.clients i).active = true ∧ (r1.clients i).active = false) ∧
      r1.disconnected_count = int_wrap (r.disconnected_count + 1)) := by
  have hkeep : ∀ r2 : Registry, r2.disconnected_count = r.disconnected_count →
      (∀ i, (r.clients i).active = true → (r2.clients i).active = true) →
      ((¬ ∃ i, (r.clients i).active = true ∧ (r2.clients i).active = false) ∧
        r2.disconnected_count = r.disconnected_count) ∨
      ((∃ i, (r.clients i).active = true ∧ (r2.clients i).active = false) ∧
        r2.disconnected_count = int_wrap (r.disconnected_count + 1)) := by
    intro r2 hc h
    refine Or.inl ⟨?_, hc⟩
    rintro ⟨i, hi, hi1⟩
    rw [h i hi] at hi1
    cases hi1
  have hsame := hkeep r rfl (fun _ h => h)
  have hset : ∀ (i : Fin MAX_CLIENTS) (c : client_t),
      ((r.clients i).active = true → c.active = true) →
      ((¬ ∃ j, (r.clients j).active = true ∧ ((r.set i c).clients j).active = false) ∧
        (r.set i c).disconnected_count = r.disconnected_count) ∨
      ((∃ j, (r.clients j).active = true ∧ ((r.set i c).clients j).active = false) ∧
        (r.set i c).disconnected_count = int_wrap (r.disconnected_count + 1)) :=
    fun i c hc => hkeep _ rfl (set_keeps_active r i c hc)
  have hfreed : ∀ i : Fin MAX_CLIENTS, (r.clients i).active = true →
      ((¬ ∃ j, (r.clients j).active = true ∧ ((r.freed i).clients j).active = false) ∧
        (r.freed i).disconnected_count = r.disconnected_count) ∨
      ((∃ j, (r.clients j).active = true ∧ ((r.freed i).clients j).active = false) ∧
        (r.freed i).disconnected_count = int_wrap (r.disconnected_count + 1)) :=
    fun i hact => Or.inr ⟨⟨i, hact, r.freed_active i⟩, rfl⟩
  cases hs with
  | register sockfd =>
    rcases add_client_scan_shape sockfd r slots with h | ⟨i, -, h⟩
    · unfold add_client; rw [h]; exact hsame
    · unfold add_client; rw [h]; exact hset i _ (fun _ => rfl)
  | unregister _ cid ev h =>
    rcases remove_client_by_id_shape cid r r1 ev h with h | ⟨i, hact, h⟩
    · rw [h]; exact hsame
    · rw [h]; exact hfreed i hact
  | set_room _ cid room h =>
    rcases change_room_shape cid room r r1 h with h | ⟨i, -, h⟩
    · rw [h]; exact hsame
    · rw [h]; exact hset i _ (fun h => h)
  | session _ s recv ev go h =>
    rcases handle_client_step_shape s recv r r1 ev go h with h | ⟨c, -, h⟩ | ⟨ev1, h⟩
    · rw [h]; exact hsame
    · rw [h]; exact hset s.idx _ (fun h => h)
    · rcases remove_client_by_id_shape _ r r1 ev1 h with h | ⟨i, hact, h⟩
      · rw [h]; exact hsame
      · rw [h]; exact hfreed i hact

theorem disconnects_nonneg (r r1 : Registry) : 0 ≤ disconnects r r1 := by
  unfold disconnects
  split <;> decide

/-- The counter of a state reached by `n` disconnects is the `int` that `n` increments of
0 leave. -/
theorem run_counter (r : Registry) (n : Int) (hrun : Run r n) :
    0 ≤ n ∧ r.disconnected_count = int_wrap n := by
  induction hrun with
  | init => exact ⟨le_refl 0, rfl⟩
  | step r r1 n _ hs ih =>
    rcases step_counter r r1 hs with ⟨hno, hc⟩ | ⟨hyes, hc⟩
    · unfold disconnects
      rw [if_neg hno, hc]
      exact ⟨by omega, by rw [ih.2, add_zero]⟩
    · unfold disconnects
      rw [if_pos hyes, hc, ih.2]
      exact ⟨by omega, int_wrap_succ n⟩

/-- C16, amended: every step of the server on its table (a registration, an
unregistration, a change of room, an iteration of a session) leaves the disconnect counter
unchanged when it moves no slot from active to free, and increments it as an `int` when it
does (`int_wrap`: `INT_MAX` is followed by `INT_MIN`). So while the counter is below
`INT_MAX` a step adds exactly the number of its disconnects, 1 or 0, and the counter does
not decrease; and in a state reached from the initial table by steps with `n` disconnects
in all the counter is the `int` that `n` wraps to, which is `n` itself when `n` is at most
`INT_MAX`. -/
theorem C16_disconnect_counter :
    (∀ r r1, Step r r1 →
      r1.disconnected_count =
        (if ∃ i, (r.clients i).active = true ∧ (r1.clients i).active = false then
          int_wrap (r.disconnected_count + 1) else r.disconnected_count) ∧
      (INT_MIN ≤ r.disconnected_count → r.disconnected_count < INT_MAX →
        r1.disconnected_count = r.disconnected_count +
          (if ∃ i, (r.clients i).active = true ∧ (r1.clients i).active = false then 1
            else 0) ∧
        r.disconnected_count ≤ r1.disconnected_count)) ∧
    (∀ r n, Run r n →
      r.disconnected_count = int_wrap n ∧ (n ≤ INT_MAX → r.disconnected_count = n)) := by
  refine ⟨fun r r1 hs => ?_, fun r n hrun => ?_⟩
  · rcases step_counter r r1 hs with ⟨hno, hc⟩ | ⟨hyes, hc⟩
    · rw [if_neg hno, if_neg hno]
      exact ⟨hc, fun _ _ => ⟨by omega, by omega⟩⟩
    · rw [if_pos hyes, if_pos hyes]
      refine ⟨hc, fun h1 h2 => ?_⟩
      rw [hc, int_wrap_of_range _ (by omega) (by omega)]
      exact ⟨rfl, by omega⟩
  · have h := run_counter r n hrun
    refine ⟨h.2, fun hn => ?_⟩
    rw [h.2]
    exact int_wrap_of_range n (by unfold INT_MIN; omega) hn

/-- C16 at the step that unregisters client 3 of `full_registry`, whose counter is 2, and at
the run of two registrations and one unregistration from the initial table. -/
theorem C16_witness_unregister :
    Step full_registry (full_registry.freed 2) ∧
    (full_registry.freed 2).disconnected_count = 2 + 1 ∧
    Run (add_client 5 (add_client 4 init_registry).1).1 0 ∧
    (add_client 5 (add_client 4 init_registry).1).1.disconnected_count = 0 := by
  have hs : Step full_registry (full_registry.freed 2) :=
    Step.unregister _ _ 3 (full_registry.freed_events 2) (by decide)
  have hrun : Run (add_client 5 (add_client 4 init_registry).1).1 0 := by
    have h1 := Run.step _ _ _ Run.init (Step.register init_registry 4)
    have h2 := Run.step _ _ _ h1 (Step.register (add_client 4 init_registry).1 5)
    have e : (0 : Int) + disconnects init_registry (add_client 4 init_registry).1 +
        disconnects (add_client 4 init_registry).1
          (add_client 5 (add_client 4 init_registry).1).1 = 0 := by decide
    rw [e] at h2
    exact h2
  refine ⟨hs, ?_, hrun, (C16_disconnect_counter.2 _ _ hrun).2 (by decide)⟩
  have h := ((C16_disconnect_counter.1 _ _ hs).2 (by decide) (by decide)).1
  rw [h]
  decide

/-- C16 as stated fails: `max_count_session` is reached from the initial table by steps
with `INT_MAX` = 2147483647 disconnects, and its counter is 2147483647. The step that
unregisters its client 1 moves slot 0 from active to free, and the counter, an `int`,
becomes -2147483648: it has decreased, it is not one more, and it is not the number
2147483648 of active-to-free moves made since the initial table. -/
theorem C16_counterexample_overflow :
    Run max_count_session 2147483647 ∧
    max_count_session.disconnected_count = 2147483647 ∧
    Step max_count_session (max_count_session.freed 0) ∧
    (max_count_session.clients 0).active = true ∧
    ((max_count_session.freed 0).clients 0).active = false ∧
    (max_count_session.freed 0).disconnected_count = -2147483648 ∧
    (max_count_session.freed 0).disconnected_count < max_count_session.disconnected_count ∧
    Run (max_count_session.freed 0) 2147483648 := by
  have hrun : Run (max_count_session.freed 0) (2147483647 + 1) :=
    count_session_run _ _ run_max_count
  refine ⟨run_max_count, ?_, count_session_step INT_MAX, ?_, ?_, ?_, ?_, hrun⟩ <;> decide

/-! ## Join commands and `change_room` -/

theorem join_command_registry (r : Registry) (s : Session) (X : Char) (t : Str)
    (hX : X = 'A' ∨ X = 'B' ∨ X = 'C') (ht : ∀ c ∈ t, c = '\n' ∨ c = '\r') :
    (handle_client_step s (some ("/room ".toList ++ [X] ++ t)) r).map (fun p => p.1) =
      some (r.set s.idx { r.clients s.idx with room := X }) ∧
    (handle_client_step s (some ([X] ++ t)) r).map (fun p => p.1) =
      some (r.set s.idx { r.clients s.idx with room := X }) := by
  have hc := room_letter_cases X hX
  have hs1 : strip_crlf ("/room ".toList ++ [X]) = "/room ".toList ++ [X] := by
    rcases hX with h | h | h <;> rw [h] <;> decide
  have hc1 : c_str ("/room ".toList ++ [X]) = "/room ".toList ++ [X] := by
    rcases hX with h | h | h <;> rw [h] <;> decide
  have hs2 : strip_crlf [X] = [X] := by
    rcases hX with h | h | h <;> rw [h] <;> decide
  have hc2 : c_str [X] = [X] := by
    rcases hX with h | h | h <;> rw [h] <;> decide
  constructor
  · rw [handle_client_step_text s r _ t (by simp) hs1 hc1 ht,
      handle_client_line_room s r X [] hc]
    rfl
  · rw [handle_client_step_text s r _ t (by simp) hs2 hc2 ht,
      handle_client_line_bare s r X hc]
    rfl

/-- C18, amended: for `X` one of A, B, C and a session with id `N`, in every registry state
in which the slot of the session is active the state a join command (the line `/room X` or
the bare line `X`, followed by any line feeds and carriage returns) leaves is the state
`change_room(N, X)` leaves. The handler does not call `change_room` and does not test the
active flag: in every state it writes `X` in the room field of its slot. -/
theorem C18_join_refines_change_room (r : Registry) (s : Session) (X : Char) (t : Str)
    (hX : X = 'A' ∨ X = 'B' ∨ X = 'C') (ht : ∀ c ∈ t, c = '\n' ∨ c = '\r') :
    ((r.clients s.idx).active = true →
      (handle_client_step s (some ("/room ".toList ++ [X] ++ t)) r).map (fun p => p.1) =
        change_room s.client_id X r ∧
      (handle_client_step s (some ([X] ++ t)) r).map (fun p => p.1) =
        change_room s.client_id X r) ∧
    (handle_client_step s (some ("/room ".toList ++ [X] ++ t)) r).map (fun p => p.1) =
      some (r.set s.idx { r.clients s.idx with room := X }) ∧
    (handle_client_step s (some ([X] ++ t)) r).map (fun p => p.1) =
      some (r.set s.idx { r.clients s.idx with room := X }) := by
  have h := join_command_registry r s X t hX ht
  refine ⟨fun hact => ?_, h⟩
  rw [change_room_of_session r s X hact]
  exact h

/-- C18 at the table `full_registry`, for client 3 (slot 2, handle 6), the room B and a line
feed as terminator. -/
theorem C18_witness_room_B :
    (full_registry.clients 2).active = true ∧
    (handle_client_step { sockfd := 6, idx := 2 }
        (some ("/room ".toList ++ ['B'] ++ "\n".toList)) full_registry).map (fun p => p.1) =
      change_room 3 'B' full_registry ∧
    (handle_client_step { sockfd := 6, idx := 2 } (some (['B'] ++ "\n".toList))
        full_registry).map (fun p => p.1) =
      change_room 3 'B' full_registry :=
  ⟨by decide,
    (C18_join_refines_change_room full_registry { sockfd := 6, idx := 2 } 'B' "\n".toList
      (by decide) (by decide)).1 (by decide)⟩

/-- C18 as stated fails: in `scenario_5` slot 0 is free. For a session on that slot the line
`A` leaves a state in which the free slot has room A, and so does `/room A`, where
`change_room(1, 'A')` leaves the state unchanged. -/
theorem C18_counterexample_free_slot :
    (scenario_5.clients 0).active = false ∧
    change_room 1 'A' scenario_5 = some scenario_5 ∧
    (handle_client_step { sockfd := 4, idx := 0 } (some "A".toList) scenario_5).map
        (fun p => p.1) =
      some (scenario_5.set 0 { sockfd := 0, id := 1, room := 'A', active := false }) ∧
    (handle_client_step { sockfd := 4, idx := 0 } (some "/room A".toList) scenario_5).map
        (fun p => p.1) =
      some (scenario_5.set 0 { sockfd := 0, id := 1, room := 'A', active := false }) ∧
    scenario_5.set 0 { sockfd := 0, id := 1, room := 'A', active := false } ≠ scenario_5 := by
  refine ⟨?_, ?_, ?_, ?_, ?_⟩ <;> decide

/-! ## The server as a whole -/

theorem add_client_cases (sockfd : Int) (r : Registry) :
    add_client sockfd r = (r, -1) ∨
    ∃ i, (r.clients i).active = false ∧ add_client sockfd r =
      (r.set i { sockfd := sockfd, id := (i.val : Int) + 1, room := NUL, active := true },
        (i.val : Int) + 1) := by
  by_cases hfree : ∃ j, (r.clients j).active = false
  · obtain ⟨i, hi, hmin⟩ := exists_first_free r hfree
    exact Or.inr ⟨i, hi, add_client_first_free sockfd r i hi hmin⟩
  · refine Or.inl (add_client_scan_full sockfd r slots (fun i _ => ?_))
    by_contra hc
    exact hfree ⟨i, by simpa using hc⟩

theorem main_accept_shape (connfd : Int) (created : Bool) (r r1 : Registry)
    (ev : List Event) (tid : Option Int)
    (h : main_accept connfd created r = some (r1, ev, tid)) :
    (r1 = r ∧ tid = none) ∨
    (∃ i, (r.clients i).active = false ∧ tid.isSome = true ∧ r1 =
      r.set i { sockfd := connfd, id := (i.val : Int) + 1, room := NUL, active := true }) ∨
    (∃ i, (r.clients i).active = false ∧ tid = none ∧ r1 = Registry.freed
      (r.set i { sockfd := connfd, id := (i.val : Int) + 1, room := NUL, active := true })
      i) := by
  unfold main_accept at h
  dsimp only at h
  split at h
  · cases h; exact Or.inl ⟨rfl, rfl⟩
  · rcases add_client_cases connfd r with hadd | ⟨i, hi, hadd⟩
    · rw [hadd] at h
      simp only [if_true] at h
      cases h
      exact Or.inl ⟨rfl, rfl⟩
    · rw [hadd] at h
      have hne : ¬ ((i.val : Int) + 1 = -1) := by omega
      simp only [hne, if_false] at h
      cases created with
      | true =>
        simp only [if_true] at h
        cases h
        exact Or.inr (Or.inl ⟨i, hi, rfl, rfl⟩)
      | false =>
        have hslot : slot_of_index ((i.val : Int) + 1 - 1) = some i := by
          have hlt := i.isLt
          obtain ⟨j, hj, hval⟩ := slot_of_index_some ((i.val : Int) + 1 - 1)
            (by omega) (by omega)
          rw [hj]
          exact congrArg some (Fin.ext (by omega))
        rw [remove_client_by_id_active _ _ i (by omega) hslot
          (by rw [Registry.set_clients_same])] at h
        simp only [Bool.false_eq_true, if_false] at h
        cases h
        exact Or.inr (Or.inr ⟨i, hi, rfl, rfl⟩)

theorem find_index_by_sock_scan_cases (sockfd : Int) (r : Registry)
    (l : List (Fin MAX_CLIENTS)) :
    find_index_by_sock_scan sockfd r l = -1 ∨
    ∃ i, find_index_by_sock_scan sockfd r l = (i.val : Int) ∧
      (r.clients i).active = true ∧ (r.clients i).sockfd = sockfd := by
  induction l with
  | nil => exact Or.inl rfl
  | cons i rest ih =>
    unfold find_index_by_sock_scan
    by_cases hc : ((r.clients i).active && (r.clients i).sockfd == sockfd) = true
    · rw [if_pos hc]
      simp only [Bool.and_eq_true, beq_iff_eq] at hc
      exact Or.inr ⟨i, rfl, hc.1, hc.2⟩
    · rw [if_neg hc]
      exact ih

theorem handle_client_start_shape (fd : Int) (r : Registry) (started : Option Session)
    (ev : List Event) (h : handle_client_start fd r = some (started, ev)) :
    started = none ∨
    ∃ s, started = some s ∧ s.sockfd = fd ∧ (r.clients s.idx).active = true ∧
      (r.clients s.idx).sockfd = fd := by
  unfold handle_client_start at h
  dsimp only at h
  split at h
  · cases h; exact Or.inl rfl
  · rename_i hne
    rcases find_index_by_sock_scan_cases fd r slots with hf | ⟨i, hf, hact, hfd⟩
    · exact absurd hf hne
    · unfold find_index_by_sock at h
      rw [hf] at h
      have hslot : slot_of_index (i.val : Int) = some i := by
        have hlt := i.isLt
        obtain ⟨j, hj, hval⟩ := slot_of_index_some (i.val : Int) (by omega) (by omega)
        rw [hj]
        exact congrArg some (Fin.ext (by omega))
      rw [hslot] at h
      cases h
      exact Or.inr ⟨_, rfl, rfl, hact, hfd⟩

theorem Session.eq_of_fields (s s1 : Session) (hfd : s.sockfd = s1.sockfd)
    (hidx : s.idx = s1.idx) : s = s1 := by
  cases s; cases s1
  simp only at hfd hidx
  rw [hfd, hidx]

theorem server_inv_init : ServerInv init_registry [] [] where
  free_clear := fun _ _ => ⟨rfl, rfl⟩
  rooms := fun _ => Or.inl rfl
  distinct := fun i _ hi => by cases hi
  pending_held := fun _ h => by cases h
  pending_nodup := List.nodup_nil
  bound := fun _ h => by cases h
  sessions_nodup := List.nodup_nil
  started := fun _ h => by cases h

theorem server_inv_fewer (r : Registry) (p p1 : List Int) (ss ss1 : List Session)
    (h : ServerInv r p ss) (hp : p1.Sublist p) (hs : ss1.Sublist ss) :
    ServerInv r p1 ss1 where
  free_clear := h.free_clear
  rooms := h.rooms
  distinct := h.distinct
  pending_held := fun fd hfd => h.pending_held fd (hp.subset hfd)
  pending_nodup := h.pending_nodup.sublist hp
  bound := fun s hs1 => h.bound s (hs.subset hs1)
  sessions_nodup := h.sessions_nodup.sublist hs
  started := fun s hs1 hmem => h.started s (hs.subset hs1) (hp.subset hmem)

theorem server_inv_set_room (r : Registry) (p : List Int) (ss : List Session)
    (i : Fin MAX_CLIENTS) (c : Char) (h : ServerInv r p ss)
    (hact : (r.clients i).active = true) (hc : is_room_letter c = true) :
    ServerInv (r.set i { r.clients i with room := c }) p ss := by
  have hactive : ∀ j, ((r.set i { r.clients i with room := c }).clients j).active =
      (r.clients j).active := by
    intro j
    by_cases hj : j = i
    · subst hj; rw [Registry.set_clients_same]
    · rw [Registry.set_clients_other _ _ _ _ hj]
  have hsock : ∀ j, ((r.set i { r.clients i with room := c }).clients j).sockfd =
      (r.clients j).sockfd := by
    intro j
    by_cases hj : j = i
    · subst hj; rw [Registry.set_clients_same]
    · rw [Registry.set_clients_other _ _ _ _ hj]
  constructor
  · intro j hj
    rw [hactive] at hj
    have hji : j ≠ i := by
      intro e; rw [e, hact] at hj; cases hj
    rw [Registry.set_clients_other _ _ _ _ hji]
    exact h.free_clear j hj
  · intro j
    by_cases hj : j = i
    · subst hj; rw [Registry.set_clients_same]; exact Or.inr hc
    · rw [Registry.set_clients_other _ _ _ _ hj]; exact h.rooms j
  · intro j k hj hk hjk
    rw [hactive] at hj hk
    rw [hsock, hsock] at hjk
    exact h.distinct j k hj hk hjk
  · intro fd hfd
    obtain ⟨j, hj, hjfd⟩ := h.pending_held fd hfd
    exact ⟨j, (hactive j).trans hj, (hsock j).trans hjfd⟩
  · exact h.pending_nodup
  · intro s hs
    obtain ⟨h1, h2⟩ := h.bound s hs
    exact ⟨(hactive s.idx).trans h1, (hsock s.idx).trans h2⟩
  · exact h.sessions_nodup
  · exact h.started

theorem server_inv_slot_cleared (r r1 : Registry) (p : List Int) (ss : List Session)
    (i : Fin MAX_CLIENTS) (h : ServerInv r p ss)
    (hother : ∀ j, j ≠ i → r1.clients j = r.clients j)
    (hfree : (r.clients i).active = false)
    (hi : (r1.clients i).active = false ∧ (r1.clients i).room = NUL ∧
      (r1.clients i).sockfd = 0) :
    ServerInv r1 p ss := by
  have hne : ∀ j, (r.clients j).active = true → j ≠ i := by
    intro j hj e; rw [e, hfree] at hj; cases hj
  have hne1 : ∀ j, (r1.clients j).active = true → j ≠ i := by
    intro j hj e; rw [e, hi.1] at hj; cases hj
  constructor
  · intro j hj
    by_cases hji : j = i
    · subst hji; exact hi.2
    · rw [hother j hji] at hj ⊢; exact h.free_clear j hj
  · intro j
    by_cases hji : j = i
    · subst hji; exact Or.inl hi.2.1
    · rw [hother j hji]; exact h.rooms j
  · intro j k hj hk hjk
    have hji := hne1 j hj
    have hki := hne1 k hk
    rw [hother j hji] at hj hjk
    rw [hother k hki] at hk hjk
    exact h.distinct j k hj hk hjk
  · intro fd hfd
    obtain ⟨j, hj, hjfd⟩ := h.pending_held fd hfd
    refine ⟨j, ?_, ?_⟩ <;> rw [hother j (hne j hj)] <;> assumption
  · exact h.pending_nodup
  · intro s hs
    obtain ⟨h1, h2⟩ := h.bound s hs
    rw [hother s.idx (hne _ h1)]
    exact ⟨h1, h2⟩
  · exact h.sessions_nodup
  · exact h.started

theorem server_inv_registered (r : Registry) (p : List Int) (ss : List Session)
    (i : Fin MAX_CLIENTS) (connfd id : Int) (h : ServerInv r p ss)
    (hfree : (r.clients i).active = false)
    (hfresh : ∀ j, (r.clients j).active = true → (r.clients j).sockfd ≠ connfd) :
    ServerInv (r.set i { sockfd := connfd, id := id, room := NUL, active := true })
      (connfd :: p) ss := by
  have hne : ∀ j, (r.clients j).active = true → j ≠ i := by
    intro j hj e; rw [e, hfree] at hj; cases hj
  have hnot : connfd ∉ p := by
    intro hmem
    obtain ⟨j, hj, hjfd⟩ := h.pending_held connfd hmem
    exact hfresh j hj hjfd
  constructor
  · intro j hj
    by_cases hji : j = i
    · subst hji; rw [Registry.set_clients_same] at hj; cases hj
    · rw [Registry.set_clients_other _ _ _ _ hji] at hj ⊢; exact h.free_clear j hj
  · intro j
    by_cases hji : j = i
    · subst hji; rw [Registry.set_clients_same]; exact Or.inl rfl
    · rw [Registry.set_clients_other _ _ _ _ hji]; exact h.rooms j
  · intro j k hj hk hjk
    by_cases hji : j = i
    · by_cases hki : k = i
      · rw [hji, hki]
      · exfalso
        rw [Registry.set_clients_other _ _ _ _ hki] at hk hjk
        rw [hji, Registry.set_clients_same] at hjk
        exact hfresh k hk hjk.symm
    · rw [Registry.set_clients_other _ _ _ _ hji] at hj hjk
      by_cases hki : k = i
      · exfalso
        rw [hki, Registry.set_clients_same] at hjk
        exact hfresh j hj hjk
      · rw [Registry.set_clients_other _ _ _ _ hki] at hk hjk
        exact h.distinct j k hj hk hjk
  · intro fd hfd
    rcases List.mem_cons.mp hfd with hfd | hfd
    · exact ⟨i, by rw [Registry.set_clients_same], by rw [Registry.set_clients_same, hfd]⟩
    · obtain ⟨j, hj, hjfd⟩ := h.pending_held fd hfd
      refine ⟨j, ?_, ?_⟩ <;> rw [Registry.set_clients_other _ _ _ _ (hne j hj)] <;>
        assumption
  · exact List.nodup_cons.mpr ⟨hnot, h.pending_nodup⟩
  · intro s hs
    obtain ⟨h1, h2⟩ := h.bound s hs
    rw [Registry.set_clients_other _ _ _ _ (hne _ h1)]
    exact ⟨h1, h2⟩
  · exact h.sessions_nodup
  · intro s hs hmem
    obtain ⟨h1, h2⟩ := h.bound s hs
    rcases List.mem_cons.mp hmem with hfd | hfd
    · exact hfresh s.idx h1 (h2.trans hfd)
    · exact h.started s hs hfd

theorem server_inv_session_freed (r : Registry) (p : List Int) (ss : List Session)
    (s : Session) (h : ServerInv r p ss) (hs : s ∈ ss) :
    ServerInv (r.freed s.idx) p (ss.erase s) := by
  obtain ⟨hact, hfd⟩ := h.bound s hs
  have hne1 : ∀ j, ((r.freed s.idx).clients j).active = true → j ≠ s.idx := by
    intro j hj e; rw [e, r.freed_active] at hj; cases hj
  constructor
  · intro j hj
    by_cases hji : j = s.idx
    · rw [hji, Registry.freed_same]; exact ⟨rfl, rfl⟩
    · rw [r.freed_other _ j hji] at hj ⊢; exact h.free_clear j hj
  · intro j
    by_cases hji : j = s.idx
    · rw [hji, Registry.freed_same]; exact Or.inl rfl
    · rw [r.freed_other _ j hji]; exact h.rooms j
  · intro j k hj hk hjk
    have hji := hne1 j hj
    have hki := hne1 k hk
    rw [r.freed_other _ j hji] at hj hjk
    rw [r.freed_other _ k hki] at hk hjk
    exact h.distinct j k hj hk hjk
  · intro fd hmem
    obtain ⟨j, hj, hjfd⟩ := h.pending_held fd hmem
    have hji : j ≠ s.idx := by
      intro e
      rw [e, hfd] at hjfd
      exact h.started s hs (hjfd ▸ hmem)
    refine ⟨j, ?_, ?_⟩ <;> rw [r.freed_other _ j hji] <;> assumption
  · exact h.pending_nodup
  · intro s1 hs1
    have hmem := (h.sessions_nodup.mem_erase_iff.mp hs1)
    obtain ⟨h1, h2⟩ := h.bound s1 hmem.2
    have hidx : s1.idx ≠ s.idx := by
      intro e
      refine hmem.1 (Session.eq_of_fields s1 s ?_ e)
      rw [← h2, e, hfd]
    rw [r.freed_other _ _ hidx]
    exact ⟨h1, h2⟩
  · exact h.sessions_nodup.erase s
  · intro s1 hs1
    exact h.started s1 (List.mem_of_mem_erase hs1)

theorem server_inv_started (r : Registry) (p : List Int) (ss : List Session)
    (s : Session) (h : ServerInv r p ss) (hmem : s.sockfd ∈ p)
    (hact : (r.clients s.idx).active = true) (hfd : (r.clients s.idx).sockfd = s.sockfd) :
    ServerInv r (p.erase s.sockfd) (s :: ss) where
  free_clear := h.free_clear
  rooms := h.rooms
  distinct := h.distinct
  pending_held := fun fd hfd1 => h.pending_held fd (List.mem_of_mem_erase hfd1)
  pending_nodup := h.pending_nodup.erase _
  bound := fun s1 hs1 => by
    rcases List.mem_cons.mp hs1 with e | hs1
    · rw [e]; exact ⟨hact, hfd⟩
    · exact h.bound s1 hs1
  sessions_nodup := List.nodup_cons.mpr
    ⟨fun hs => h.started s hs hmem, h.sessions_nodup⟩
  started := fun s1 hs1 hp => by
    have hp1 := h.pending_nodup.mem_erase_iff.mp hp
    rcases List.mem_cons.mp hs1 with e | hs1
    · exact hp1.1 (by rw [e])
    · exact h.started s1 hs1 hp1.2

theorem handle_client_line_go (s : Session) (buf : Str) (r r1 : Registry)
    (ev : List Event) (h : handle_client_line s buf r = some (r1, ev, true)) :
    r1 = r ∨
    ∃ c, is_room_letter c = true ∧ r1 = r.set s.idx { r.clients s.idx with room := c } := by
  unfold handle_client_line at h
  dsimp only at h
  split at h
  · split at h
    · cases h
    · cases h
  · split at h
    · split at h
      · rename_i hc
        cases h
        exact Or.inr ⟨_, hc, rfl⟩
      · cases h; exact Or.inl rfl
    · split at h
      · rename_i hc
        cases h
        exact Or.inr ⟨_, hc.2, rfl⟩
      · split at h
        · cases h; exact Or.inl rfl
        · cases h; exact Or.inl rfl

theorem handle_client_closed_ends (s : Session) (r r1 : Registry) (ev : List Event)
    (h : handle_client_closed s r = some (r1, ev, true)) : False := by
  unfold handle_client_closed at h
  split at h
  · cases h
  · cases h

theorem handle_client_step_go (s : Session) (recv : Option Str) (r r1 : Registry)
    (ev : List Event) (h : handle_client_step s recv r = some (r1, ev, true)) :
    r1 = r ∨
    ∃ c, is_room_letter c = true ∧ r1 = r.set s.idx { r.clients s.idx with room := c } := by
  unfold handle_client_step at h
  dsimp only at h
  split at h
  · exact (handle_client_closed_ends s r r1 ev h).elim
  · split at h
    · exact (handle_client_closed_ends s r r1 ev h).elim
    · split at h
      · cases h; exact Or.inl rfl
      · exact handle_client_line_go s _ r r1 ev h

theorem server_step_inv (σ σ1 : Server) (hs : ServerStep σ σ1)
    (h : ServerInv σ.registry σ.pending σ.sessions) :
    ServerInv σ1.registry σ1.pending σ1.sessions := by
  cases hs with
  | accept connfd created r1 ev tid _ hfresh hacc =>
    rcases main_accept_shape connfd created σ.registry r1 ev tid hacc with
      ⟨hr, ht⟩ | ⟨i, hi, ht, hr⟩ | ⟨i, hi, ht, hr⟩
    · subst hr ht
      exact h
    · dsimp only
      rw [ht, if_pos rfl, hr]
      exact server_inv_registered σ.registry σ.pending σ.sessions i connfd _ h hi hfresh
    · subst ht
      dsimp only
      refine server_inv_slot_cleared σ.registry r1 σ.pending σ.sessions i h ?_ hi ?_
      · intro j hj
        rw [hr, Registry.freed_other _ _ _ hj, Registry.set_clients_other _ _ _ _ hj]
      · rw [hr, Registry.freed_same]
        exact ⟨rfl, rfl, rfl⟩
  | start fd started ev hmem hstart =>
    rcases handle_client_start_shape fd σ.registry started ev hstart with
      hnone | ⟨s, hsome, hsfd, hact, hfd⟩
    · subst hnone
      exact server_inv_fewer _ _ _ _ _ h (List.erase_sublist fd σ.pending)
        (List.Sublist.refl _)
    · subst hsome
      dsimp only
      rw [← hsfd]
      exact server_inv_started σ.registry σ.pending σ.sessions s h (hsfd ▸ hmem) hact
        (hfd.trans hsfd.symm)
  | line s recv r1 ev go hmem hstep =>
    obtain ⟨hact, hfd⟩ := h.bound s hmem
    cases go with
    | true =>
      dsimp only
      rw [if_pos rfl]
      rcases handle_client_step_go s recv σ.registry r1 ev hstep with hr | ⟨c, hc, hr⟩
      · rw [hr]; exact h
      · rw [hr]; exact server_inv_set_room _ _ _ s.idx c h hact hc
    | false =>
      dsimp only
      rw [if_neg (by decide)]
      rcases handle_client_step_shape s recv σ.registry r1 ev false hstep with
        hr | ⟨c, hc, hr⟩ | ⟨ev1, hrm⟩
      · rw [hr]
        exact server_inv_fewer _ _ _ _ _ h (List.Sublist.refl _)
          (List.erase_sublist s σ.sessions)
      · rw [hr]
        exact server_inv_fewer _ _ _ _ _
          (server_inv_set_room _ _ _ s.idx c h hact hc) (List.Sublist.refl _)
          (List.erase_sublist s σ.sessions)
      · rw [remove_client_by_id_active s.client_id σ.registry s.idx
          (by unfold Session.client_id; omega) (slot_of_client_id s) hact] at hrm
        cases hrm
        exact server_inv_session_freed _ _ _ s h hmem

theorem server_reachable_inv (σ : Server) (h : ServerReachable σ) :
    ServerInv σ.registry σ.pending σ.sessions := by
  induction h with
  | init => exact server_inv_init
  | step σ σ1 _ hs ih => exact server_step_inv σ σ1 hs ih

/-- In every state the server as a whole reaches from the initial all-free table by its own
steps (the accept path of `main`, which registers a connection and unregisters it again
when no thread can be started; the start of a session; and the iterations of the sessions
on arbitrary received bytes, which change rooms and unregister), the room of every slot is
none, A, B or C, and every free slot has no room and the handle 0. -/
theorem server_rooms_and_free_slots (σ : Server) (hreach : ServerReachable σ) :
    (∀ i, (σ.registry.clients i).room = NUL ∨ (σ.registry.clients i).room = 'A' ∨
      (σ.registry.clients i).room = 'B' ∨ (σ.registry.clients i).room = 'C') ∧
    (∀ i, (σ.registry.clients i).active = false →
      (σ.registry.clients i).room = NUL ∧ (σ.registry.clients i).sockfd = 0) := by
  have hinv := server_reachable_inv σ hreach
  refine ⟨fun i => ?_, hinv.free_clear⟩
  rcases hinv.rooms i with hn | hl
  · exact Or.inl hn
  · simp only [is_room_letter, Bool.or_eq_true, beq_iff_eq] at hl
    rcases hl with (hl | hl) | hl
    · exact Or.inr (Or.inl hl)
    · exact Or.inr (Or.inr (Or.inl hl))
    · exact Or.inr (Or.inr (Or.inr hl))

theorem scenario_server_reachable : ServerReachable scenario_server := by
  have h1 : ServerReachable { registry := scenario_1, pending := [4], sessions := [] } :=
    ServerReachable.step _ _ ServerReachable.init
      (ServerStep.accept init_server 4 true scenario_1
        [Event.printf "[Server] New connection accepted, assigned id=1 sock=4\n".toList,
         Event.send 4 "Welcome! Your client id is 1\n".toList] (some 1)
        (by decide) (by decide) (by decide))
  have h2 : ServerReachable
      { registry := scenario_1, pending := [], sessions := [{ sockfd := 4, idx := 0 }] } :=
    ServerReachable.step _ _ h1
      (ServerStep.start _ 4 (some { sockfd := 4, idx := 0 })
        [Event.send 4 "Welcome! Enter room: A / B / C (example: A)\n".toList]
        (by decide) (by decide))
  exact ServerReachable.step _ _ h2
    (ServerStep.line _ { sockfd := 4, idx := 0 } (some "A".toList) scenario_2
      [Event.send 4 "You joined RoomA\n".toList] true (by decide) (by decide))

/-- In every state the server as a whole reaches, an active slot holds a positive handle,
and a session has a positive descriptor and is on an active slot: `main` registers no
negative result of `accept`, and no step writes the handle of an active slot. -/
theorem server_handles_positive (σ : Server) (hreach : ServerReachable σ) :
    (∀ i, (σ.registry.clients i).active = true → 0 < (σ.registry.clients i).sockfd) ∧
    (∀ s ∈ σ.sessions, 0 < s.sockfd ∧ (σ.registry.clients s.idx).active = true) := by
  have htable : ∀ i, (σ.registry.clients i).active = true →
      0 < (σ.registry.clients i).sockfd := by
    induction hreach with
    | init => decide
    | step σ σ1 _ hs ih =>
      have hfreed : ∀ (r : Registry) (i : Fin MAX_CLIENTS),
          (∀ j, (r.clients j).active = true → 0 < (r.clients j).sockfd) →
          ∀ j, ((r.freed i).clients j).active = true → 0 < ((r.freed i).clients j).sockfd := by
        intro r i hr j hj
        by_cases hji : j = i
        · subst hji; rw [Registry.freed_active] at hj; cases hj
        · rw [Registry.freed_other _ _ _ hji] at hj ⊢; exact hr j hj
      have hset : ∀ (r : Registry) (i : Fin MAX_CLIENTS) (c : client_t),
          (∀ j, (r.clients j).active = true → 0 < (r.clients j).sockfd) →
          (c.active = true → 0 < c.sockfd) →
          ∀ j, ((r.set i c).clients j).active = true → 0 < ((r.set i c).clients j).sockfd := by
        intro r i c hr hc j hj
        by_cases hji : j = i
        · subst hji; rw [Registry.set_clients_same] at hj ⊢; exact hc hj
        · rw [Registry.set_clients_other _ _ _ _ hji] at hj ⊢; exact hr j hj
      cases hs with
      | accept connfd created r1 ev tid hne _ h =>
        by_cases hneg : connfd < 0
        · unfold main_accept at h
          rw [if_pos hneg] at h
          cases h
          exact ih
        · have hpos : 0 < connfd := by omega
          rcases main_accept_shape connfd created _ r1 ev tid h with
            ⟨h1, -⟩ | ⟨i, -, -, h1⟩ | ⟨i, -, -, h1⟩
          · rw [h1]; exact ih
          · rw [h1]; exact hset _ i _ ih (fun _ => hpos)
          · rw [h1]; exact hfreed _ i (hset _ i _ ih (fun _ => hpos))
      | start fd started ev _ _ => exact ih
      | line s recv r1 ev go _ h =>
        rcases handle_client_step_shape s recv _ r1 ev go h with h1 | ⟨c, -, h1⟩ | ⟨ev1, h1⟩
        · rw [h1]; exact ih
        · rw [h1]; exact hset _ s.idx _ ih (fun hc => ih s.idx hc)
        · rcases remove_client_by_id_shape _ _ r1 ev1 h1 with h2 | ⟨i, -, h2⟩
          · rw [h2]; exact ih
          · rw [h2]; exact hfreed _ i ih
  have hinv := server_reachable_inv σ hreach
  refine ⟨htable, fun s hs => ?_⟩
  have hb := hinv.bound s hs
  exact ⟨by rw [← hb.2]; exact htable s.idx hb.1, hb.1⟩

/-! ## Registrations, unregistrations and lines of sessions -/

theorem main_accept_registry (connfd : Int) (created : Bool) (r r1 : Registry)
    (ev : List Event) (tid : Option Int)
    (h : main_accept connfd created r = some (r1, ev, tid)) :
    r1 = r ∨ r1 = (add_client connfd r).1 ∨
    ∃ cid ev1, remove_client_by_id cid (add_client connfd r).1 = some (r1, ev1) := by
  unfold main_accept at h
  dsimp only at h
  split at h
  · cases h; exact Or.inl rfl
  · split at h
    · cases h; exact Or.inr (Or.inl rfl)
    · split at h
      · cases h; exact Or.inr (Or.inl rfl)
      · split at h
        · cases h
        · rename_i r2 ev2 heq
          cases h
          exact Or.inr (Or.inr ⟨_, ev2, heq⟩)

/-- The table of a state the server as a whole reaches is reached by registrations,
unregistrations and iterations of sessions whose slot is active. -/
theorem server_reachable_line_reachable (σ : Server) (hreach : ServerReachable σ) :
    LineReachable true σ.registry := by
  induction hreach with
  | init => exact LineReachable.init
  | step σ σ1 hσ hs ih =>
    have hinv := server_reachable_inv σ hσ
    cases hs with
    | accept connfd created r1 ev tid _ hfresh h =>
      rcases main_accept_registry connfd created _ r1 ev tid h with h1 | h1 | ⟨cid, ev1, h1⟩
      · rw [h1]; exact ih
      · rw [h1]; exact LineReachable.register _ connfd ih
      · exact LineReachable.unregister _ r1 cid ev1
          (LineReachable.register _ connfd ih) h1
    | start fd started ev hfd h => exact ih
    | line s recv r1 ev go hmem h =>
      exact LineReachable.line _ r1 s recv ev go ih (fun _ => (hinv.bound s hmem).1) h

end ChatServer
